import Mathlib

/-!
# EazzyMart migration script (`capstone-backend/database/migrate-to-postgres.js`)

A shallow embedding of the SQLite to PostgreSQL migration script.  The two
stores, the process configuration, the schema file and the runtime's
`parseInt` are the environment (`Env`): every call the script makes to them is
answered by a function of the events issued so far, so an answer may depend on
everything that happened before (a second insert of the same row may fail on a
unique constraint although the first one succeeded).  Every function of the
script returns its result together with the events it issued, in order.
-/

set_option autoImplicit false

namespace Migrate

/-! ## Values and rows -/

/-- JavaScript values that a database driver hands to the script.  Numbers are
the integers (SQLite `INTEGER` columns). -/
inductive JSValue where
  | undefined
  | null
  | bool (b : Bool)
  | num (n : Int)
  | str (s : String)
  deriving DecidableEq, Repr

/-- A row object: an ordered mapping from column name to value. -/
abbrev Row := List (String × JSValue)

namespace Object

/-- `Object.keys(row)`: the column names in their order in the row object. -/
def keys (row : Row) : List String := row.map Prod.fst

end Object

/-- `row[col]`: the value of a column, `undefined` when the row has no such key. -/
def Row.get (row : Row) (col : String) : JSValue :=
  match row.lookup col with
  | some v => v
  | none => JSValue.undefined

/-- JavaScript truthiness. -/
def truthy : JSValue → Bool
  | .undefined => false
  | .null => false
  | .bool b => b
  | .num n => n != 0
  | .str s => s != ""

/-- The operator `a || b`. -/
def jsOr (a b : JSValue) : JSValue := if truthy a then a else b

/-- An error object, identified by its message. -/
abbrev Err := String

/-! ## Configuration -/

/-- Table migration order (respects foreign key dependencies). -/
def TABLES : List String :=
  ["items", "stock_entries", "users", "tax_reports", "orders", "order_items",
   "sales", "salesorder", "return_refund_requests"]

/-- The tables that have non-serial IDs (`includeIdTables` in `migrateTable`). -/
def includeIdTables : List String := ["orders", "sales"]

/-! ## Statements sent to the two stores -/

/-- The statements the script sends to the SQLite handle. -/
inductive SqliteStmt where
  | tableExists (tableName : String)
  | selectAll (tableName : String)
  | selectCount (tableName : String)
  deriving DecidableEq, Repr

/-- The statements the script sends to the PostgreSQL pool. -/
inductive PgStmt where
  | version
  | schema (sql : String)
  | insert (tableName : String) (insertColumns : List String) (values : List JSValue)
  | setval (tableName : String)
  | selectCount (tableName : String)
  deriving DecidableEq, Repr

/-- The SQL text of a SQLite statement. -/
def SqliteStmt.text : SqliteStmt → String
  | .tableExists _ => "SELECT name FROM sqlite_master WHERE type=\x27table\x27 AND name=?"
  | .selectAll tableName => "SELECT * FROM " ++ tableName
  | .selectCount tableName => "SELECT COUNT(*) as count FROM " ++ tableName

/-- The bound parameters of a SQLite statement. -/
def SqliteStmt.params : SqliteStmt → List JSValue
  | .tableExists tableName => [JSValue.str tableName]
  | _ => []

/-- The list `insertColumns.map((_, i) => $i+1)`, before it is joined. -/
def placeholders (insertColumns : List String) : List String :=
  insertColumns.enum.map (fun p => "$" ++ toString (p.1 + 1))

/-- The list `insertColumns`, joined into the column list of the statement. -/
def columnNames (insertColumns : List String) : String :=
  ", ".intercalate insertColumns

/-- The SQL text of a PostgreSQL statement. -/
def PgStmt.text : PgStmt → String
  | .version => "SELECT version()"
  | .schema sql => sql
  | .insert tableName insertColumns _ =>
    "INSERT INTO " ++ tableName ++ " (" ++ columnNames insertColumns ++ ") VALUES ("
      ++ ", ".intercalate (placeholders insertColumns) ++ ")"
  | .setval tableName =>
    "SELECT setval(\x27" ++ tableName ++ "_id_seq\x27, (SELECT MAX(id) FROM " ++ tableName
      ++ "), true)"
  | .selectCount tableName => "SELECT COUNT(*) as count FROM " ++ tableName

/-- The bound parameters of a PostgreSQL statement. -/
def PgStmt.params : PgStmt → List JSValue
  | .insert _ _ values => values
  | _ => []

/-! ## Events -/

/-- The lines written to the console, by kind. -/
inductive Msg where
  | banner
  | connectingSqlite
  | connectedSqlite
  | connectingPg
  | connectedPg (version : JSValue)
  | creatingSchema
  | schemaCreated
  | migratingTable (tableName : String)
  | tableMissing (tableName : String)
  | tableEmpty (tableName : String)
  | insertError (tableName : String) (message : String)
  | rowData (row : Row)
  | migratedRows (migratedCount : Nat) (tableName : String)
  | sequenceReset (tableName : String)
  | sequenceNotReset (tableName : String)
  | verifying
  | verified (same : Bool) (tableName : String) (sqliteTotal : JSValue) (pgTotal : Option Int)
  | countMismatch
  | couldNotVerify (tableName : String)
  | startingData
  | summaryBanner
  | totalRows (totalRows : Nat)
  | rowsPerTable
  | tableRows (table : String) (count : Nat)
  | completed
  | nextSteps
  | migrationFailed (message : String)
  | errorObject (error : Err)
  | closedSqlite
  | closedPg
  | fatalError (err : Err)
  deriving DecidableEq, Repr

/-- Everything the script does to the outside, with the outcome of each call. -/
inductive Event where
  | console (m : Msg)
  | sqliteOpen (ok : Bool)
  | newPool (connectionString : String) (ssl : Bool)
  | pgConnect (ok : Bool)
  | clientRelease
  | readSchema (ok : Bool)
  | sqliteGet (stmt : SqliteStmt) (ok : Bool)
  | sqliteAll (stmt : SqliteStmt) (ok : Bool)
  | pgQuery (stmt : PgStmt) (ok : Bool)
  | sqliteClose (ok : Bool)
  | pgEnd (ok : Bool)
  | processExit (code : Nat)
  deriving DecidableEq, Repr

/-- The environment of a run.  Each call is answered from the events issued
before it; `none` from `parseInt` is `NaN`. -/
structure Env where
  sqliteOpen : List Event → Except Err Unit
  databaseUrl : Option String
  dbSsl : Option String
  pgConnect : List Event → Except Err Unit
  readSchema : List Event → Except Err String
  pgQuery : List Event → PgStmt → Except Err (List Row)
  sqliteGet : List Event → SqliteStmt → Except Err (Option Row)
  sqliteAll : List Event → SqliteStmt → Except Err (List Row)
  sqliteClose : List Event → Except Err Unit
  pgEnd : List Event → Except Err Unit
  parseInt : JSValue → Option Int

/-- The module-level variables `sqliteDb` and `pgPool`: whether each is set. -/
structure Vars where
  sqliteDb : Bool
  pgPool : Bool
  deriving DecidableEq, Repr

/-! ## Connections and schema -/

/-- Connect to SQLite database. -/
def connectSQLite (env : Env) (h : List Event) (v : Vars) : Except Err Unit × List Event × Vars :=
  let e0 := [Event.console Msg.connectingSqlite]
  match env.sqliteOpen (h ++ e0) with
  | .error err => (.error err, e0 ++ [Event.sqliteOpen false], v)
  | .ok _ =>
    (.ok (), e0 ++ [Event.sqliteOpen true, Event.console Msg.connectedSqlite],
      Vars.mk true v.pgPool)

/-- Connect to PostgreSQL database. -/
def connectPostgreSQL (env : Env) (h : List Event) (v : Vars) :
    Except Err Unit × List Event × Vars :=
  let e0 := [Event.console Msg.connectingPg]
  match env.databaseUrl with
  | none => (.error "DATABASE_URL environment variable is not set", e0, v)
  | some url =>
    if url = "" then (.error "DATABASE_URL environment variable is not set", e0, v)
    else
      let e1 := e0 ++ [Event.newPool url (decide (env.dbSsl = some "true"))]
      let v1 := Vars.mk v.sqliteDb true
      match env.pgConnect (h ++ e1) with
      | .error err => (.error err, e1 ++ [Event.pgConnect false], v1)
      | .ok _ =>
        let e2 := e1 ++ [Event.pgConnect true]
        match env.pgQuery (h ++ e2) PgStmt.version with
        | .error err => (.error err, e2 ++ [Event.pgQuery PgStmt.version false], v1)
        | .ok rows =>
          match rows.head? with
          | none =>
            (.error "Cannot read properties of undefined (reading \x27version\x27)",
              e2 ++ [Event.pgQuery PgStmt.version true], v1)
          | some row =>
            (.ok (), e2 ++ [Event.pgQuery PgStmt.version true,
              Event.console (Msg.connectedPg (row.get "version")), Event.clientRelease], v1)

/-- Create PostgreSQL schema. -/
def createSchema (env : Env) (h : List Event) : Except Err Unit × List Event :=
  let e0 := [Event.console Msg.creatingSchema]
  match env.readSchema (h ++ e0) with
  | .error err => (.error err, e0 ++ [Event.readSchema false])
  | .ok schema =>
    let e1 := e0 ++ [Event.readSchema true]
    match env.pgQuery (h ++ e1) (PgStmt.schema schema) with
    | .error err => (.error err, e1 ++ [Event.pgQuery (PgStmt.schema schema) false])
    | .ok _ =>
      (.ok (), e1 ++ [Event.pgQuery (PgStmt.schema schema) true, Event.console Msg.schemaCreated])

/-! ## Migration of one table -/

/-- The filter of `migrateTable` that drops the auto-increment `id` column. -/
def selectInsertColumns (tableName : String) (columns : List String) : List String :=
  columns.filter (fun col => col != "id" || includeIdTables.contains tableName)

/-- The callback of `insertColumns.map` in `migrateTable`, applied to `row[col]`. -/
def convertValue (tableName : String) (col : String) (value : JSValue) : JSValue :=
  if tableName = "users" ∧ col = "isVerified" then JSValue.bool (decide (value = JSValue.num 1))
  else if tableName = "sales" ∧ col = "isDelivered" then
    JSValue.bool (decide (value = JSValue.num 1))
  else if value = JSValue.null ∨ value = JSValue.undefined then JSValue.null
  else value

/-- The array `values` built for one row. -/
def rowValues (tableName : String) (insertColumns : List String) (row : Row) : List JSValue :=
  insertColumns.map (fun col => convertValue tableName col (row.get col))

/-- The insert statement of one row. -/
def insertStmt (tableName : String) (insertColumns : List String) (row : Row) : PgStmt :=
  PgStmt.insert tableName insertColumns (rowValues tableName insertColumns row)

/-- The loop `for (const row of rows)` of `migrateTable`: rows are inserted one
by one, the first failing insert is logged and rethrown. -/
def insertRows (env : Env) (tableName : String) (insertColumns : List String) :
    List Row → List Event → Nat → Except Err Nat × List Event
  | [], _, migratedCount => (.ok migratedCount, [])
  | row :: rest, h, migratedCount =>
    match env.pgQuery h (insertStmt tableName insertColumns row) with
    | .ok _ =>
      let e := Event.pgQuery (insertStmt tableName insertColumns row) true
      let r := insertRows env tableName insertColumns rest (h ++ [e]) (migratedCount + 1)
      (r.1, e :: r.2)
    | .error err =>
      (.error err, [Event.pgQuery (insertStmt tableName insertColumns row) false,
        Event.console (Msg.insertError tableName err), Event.console (Msg.rowData row)])

/-- The object returned by `migrateTable`. -/
structure MigrateResult where
  migrated : Nat
  deriving DecidableEq, Repr

/-- Migrate data for a single table. -/
def migrateTable (env : Env) (tableName : String) (h : List Event) :
    Except Err MigrateResult × List Event :=
  let e0 := [Event.console (Msg.migratingTable tableName)]
  match env.sqliteGet (h ++ e0) (SqliteStmt.tableExists tableName) with
  | .error err => (.error err, e0 ++ [Event.sqliteGet (SqliteStmt.tableExists tableName) false])
  | .ok none =>
    (.ok (MigrateResult.mk 0), e0 ++ [Event.sqliteGet (SqliteStmt.tableExists tableName) true,
      Event.console (Msg.tableMissing tableName)])
  | .ok (some _) =>
    let e1 := e0 ++ [Event.sqliteGet (SqliteStmt.tableExists tableName) true]
    match env.sqliteAll (h ++ e1) (SqliteStmt.selectAll tableName) with
    | .error err => (.error err, e1 ++ [Event.sqliteAll (SqliteStmt.selectAll tableName) false])
    | .ok rows =>
      let e2 := e1 ++ [Event.sqliteAll (SqliteStmt.selectAll tableName) true]
      match rows with
      | [] => (.ok (MigrateResult.mk 0), e2 ++ [Event.console (Msg.tableEmpty tableName)])
      | first :: _ =>
        let insertColumns := selectInsertColumns tableName (Object.keys first)
        let r := insertRows env tableName insertColumns rows (h ++ e2) 0
        match r.1 with
        | .error err => (.error err, e2 ++ r.2)
        | .ok migratedCount =>
          let e3 := e2 ++ r.2 ++ [Event.console (Msg.migratedRows migratedCount tableName)]
          if ["orders", "sales"].contains tableName then (.ok (MigrateResult.mk migratedCount), e3)
          else
            match env.pgQuery (h ++ e3) (PgStmt.setval tableName) with
            | .ok _ =>
              (.ok (MigrateResult.mk migratedCount), e3 ++ [Event.pgQuery (PgStmt.setval tableName) true,
                Event.console (Msg.sequenceReset tableName)])
            | .error _ =>
              (.ok (MigrateResult.mk migratedCount), e3 ++ [Event.pgQuery (PgStmt.setval tableName) false,
                Event.console (Msg.sequenceNotReset tableName)])

/-! ## Verification -/

/-- The comparison `sqliteTotal === pgTotal` of a value with a parsed number. -/
def sameTotal (sqliteTotal : JSValue) (pgTotal : Option Int) : Bool :=
  match sqliteTotal, pgTotal with
  | .num n, some m => n == m
  | _, _ => false

/-- The body of the `try` block of `verifyMigration` for one table. -/
def verifyTable (env : Env) (tableName : String) (h : List Event) : Except Err Unit × List Event :=
  match env.sqliteGet h (SqliteStmt.selectCount tableName) with
  | .error err => (.error err, [Event.sqliteGet (SqliteStmt.selectCount tableName) false])
  | .ok sqliteCount =>
    let e1 := [Event.sqliteGet (SqliteStmt.selectCount tableName) true]
    match env.pgQuery (h ++ e1) (PgStmt.selectCount tableName) with
    | .error err => (.error err, e1 ++ [Event.pgQuery (PgStmt.selectCount tableName) false])
    | .ok pgRows =>
      let sqliteTotal :=
        jsOr (match sqliteCount with
              | some row => row.get "count"
              | none => JSValue.undefined) (JSValue.num 0)
      let pgTotal :=
        env.parseInt (jsOr (match pgRows.head? with
                            | some row => row.get "count"
                            | none => JSValue.undefined) (JSValue.num 0))
      let e2 := e1 ++ [Event.pgQuery (PgStmt.selectCount tableName) true,
        Event.console (Msg.verified (sameTotal sqliteTotal pgTotal) tableName sqliteTotal pgTotal)]
      if sameTotal sqliteTotal pgTotal then (.ok (), e2)
      else (.ok (), e2 ++ [Event.console Msg.countMismatch])

/-- The loop `for (const tableName of TABLES)` of `verifyMigration`, with its
`try`/`catch` around each table. -/
def verifyTables (env : Env) : List String → List Event → Except Err Unit × List Event
  | [], _ => (.ok (), [])
  | tableName :: rest, h =>
    let r := verifyTable env tableName h
    let e :=
      match r.1 with
      | .ok _ => r.2
      | .error _ => r.2 ++ [Event.console (Msg.couldNotVerify tableName)]
    let r2 := verifyTables env rest (h ++ e)
    (r2.1, e ++ r2.2)

/-- Verify migration. -/
def verifyMigration (env : Env) (h : List Event) : Except Err Unit × List Event :=
  let e0 := [Event.console Msg.verifying]
  let r := verifyTables env TABLES (h ++ e0)
  (r.1, e0 ++ r.2)

/-! ## Orchestration -/

/-- The object `stats`: table name to migrated count, keys in insertion order. -/
abbrev Stats := List (String × Nat)

/-- The assignment `stats[tableName] = count`. -/
def Stats.set (stats : Stats) (tableName : String) (count : Nat) : Stats :=
  if stats.any (fun p => p.1 == tableName) then
    stats.map (fun p => if p.1 == tableName then (tableName, count) else p)
  else stats ++ [(tableName, count)]

/-- The loop `for (const tableName of TABLES)` of `migrate`: an error of
`migrateTable` leaves the loop. -/
def migrateTables (env : Env) : List String → List Event → Stats → Except Err Stats × List Event
  | [], _, stats => (.ok stats, [])
  | tableName :: rest, h, stats =>
    let r := migrateTable env tableName h
    match r.1 with
    | .error err => (.error err, r.2)
    | .ok result =>
      let r2 := migrateTables env rest (h ++ r.2) (stats.set tableName result.migrated)
      (r2.1, r.2 ++ r2.2)

/-- The lines of the summary (step 5 of `migrate`). -/
def summary (stats : Stats) : List Event :=
  [Event.console Msg.summaryBanner,
   Event.console (Msg.totalRows ((stats.map Prod.snd).foldl (fun sum count => sum + count) 0)),
   Event.console Msg.rowsPerTable]
  ++ stats.map (fun p => Event.console (Msg.tableRows p.1 p.2))
  ++ [Event.console Msg.completed, Event.console Msg.nextSteps]

/-- The `try` block of `migrate`. -/
def migrateTry (env : Env) (h : List Event) (v : Vars) : Except Err Unit × List Event × Vars :=
  let c1 := connectSQLite env h v
  match c1.1 with
  | .error err => (.error err, c1.2.1, c1.2.2)
  | .ok _ =>
    let c2 := connectPostgreSQL env (h ++ c1.2.1) c1.2.2
    let e2 := c1.2.1 ++ c2.2.1
    match c2.1 with
    | .error err => (.error err, e2, c2.2.2)
    | .ok _ =>
      let c3 := createSchema env (h ++ e2)
      let e3 := e2 ++ c3.2
      match c3.1 with
      | .error err => (.error err, e3, c2.2.2)
      | .ok _ =>
        let e4 := e3 ++ [Event.console Msg.startingData]
        let c5 := migrateTables env TABLES (h ++ e4) []
        let e5 := e4 ++ c5.2
        match c5.1 with
        | .error err => (.error err, e5, c2.2.2)
        | .ok stats =>
          let c6 := verifyMigration env (h ++ e5)
          let e6 := e5 ++ c6.2
          match c6.1 with
          | .error err => (.error err, e6, c2.2.2)
          | .ok _ => (.ok (), e6 ++ summary stats, c2.2.2)

/-- The `finally` block of `migrate`: close the connections that are set. -/
def migrateFinally (env : Env) (h : List Event) (v : Vars) : Except Err Unit × List Event :=
  let c1 : Except Err Unit × List Event :=
    if v.sqliteDb then
      match env.sqliteClose h with
      | .error err => (.error err, [Event.sqliteClose false])
      | .ok _ => (.ok (), [Event.sqliteClose true, Event.console Msg.closedSqlite])
    else (.ok (), [])
  match c1.1 with
  | .error err => (.error err, c1.2)
  | .ok _ =>
    if v.pgPool then
      match env.pgEnd (h ++ c1.2) with
      | .error err => (.error err, c1.2 ++ [Event.pgEnd false])
      | .ok _ => (.ok (), c1.2 ++ [Event.pgEnd true, Event.console Msg.closedPg])
    else (.ok (), c1.2)

/-- How a call of `migrate` ends: its promise resolves or rejects, or the
process was terminated by `process.exit` inside it. -/
inductive Completion where
  | resolved
  | rejected (err : Err)
  | exited (code : Nat)
  deriving DecidableEq, Repr

/-- Main migration function.  In the `catch` block `process.exit(1)` ends the
process at once: it does not return, so nothing after it runs. -/
def migrate (env : Env) : Completion × List Event :=
  let e0 := [Event.console Msg.banner]
  let r := migrateTry env e0 (Vars.mk false false)
  match r.1 with
  | .error error =>
    (Completion.exited 1, e0 ++ r.2.1 ++ [Event.console (Msg.migrationFailed error),
      Event.console (Msg.errorObject error), Event.processExit 1])
  | .ok _ =>
    let e1 := e0 ++ r.2.1
    let f := migrateFinally env e1 r.2.2
    match f.1 with
    | .error err => (Completion.rejected err, e1 ++ f.2)
    | .ok _ => (Completion.resolved, e1 ++ f.2)

/-- A run of the script: its exit status and everything it did. -/
structure Run where
  exitCode : Nat
  trace : List Event
  deriving DecidableEq, Repr

/-- Run migration (the block `if (require.main === module)`). -/
def main (env : Env) : Run :=
  let r := migrate env
  match r.1 with
  | .resolved => Run.mk 0 r.2
  | .rejected err => Run.mk 1 (r.2 ++ [Event.console (Msg.fatalError err), Event.processExit 1])
  | .exited code => Run.mk code r.2

/-! ## Reading a trace -/

/-- The value tuple that an event added to a table of the destination: the
values of a successful insert into it. -/
def Event.inserted (tableName : String) : Event → Option (List JSValue)
  | .pgQuery (PgStmt.insert t _ values) true => if t = tableName then some values else none
  | _ => none

/-- The value tuples that the successful inserts of a trace added to a table of
the destination, oldest first. -/
def insertedRows (tableName : String) (trace : List Event) : List (List JSValue) :=
  trace.filterMap (Event.inserted tableName)

/-- The insert statement that an event sent, accepted or not. -/
def Event.insertIssued : Event → Option PgStmt
  | .pgQuery (PgStmt.insert t cols values) _ => some (PgStmt.insert t cols values)
  | _ => none

/-- The insert statements of a trace, in the order they were issued. -/
def insertsIssued (trace : List Event) : List PgStmt :=
  trace.filterMap Event.insertIssued

/-- The table for which an event enters `migrateTable` (its first line). -/
def Event.entered : Event → Option String
  | .console (Msg.migratingTable t) => some t
  | _ => none

/-- The tables for which `migrateTable` was entered, in the order of the calls. -/
def tablesEntered (trace : List Event) : List String :=
  trace.filterMap Event.entered

/-- The table whose row count an event asks of the source. -/
def Event.countQueried : Event → Option String
  | .sqliteGet (SqliteStmt.selectCount t) _ => some t
  | _ => none

/-- The tables whose count was queried in the source, in the order of the queries. -/
def tablesVerified (trace : List Event) : List String :=
  trace.filterMap Event.countQueried

/-- The table that an event of `migrateTable` works on. -/
def Event.table : Event → Option String
  | .console (Msg.migratingTable t) => some t
  | .console (Msg.tableMissing t) => some t
  | .console (Msg.tableEmpty t) => some t
  | .console (Msg.migratedRows _ t) => some t
  | .console (Msg.sequenceReset t) => some t
  | .console (Msg.sequenceNotReset t) => some t
  | .sqliteGet (SqliteStmt.tableExists t) _ => some t
  | .sqliteAll (SqliteStmt.selectAll t) _ => some t
  | .pgQuery (PgStmt.insert t _ _) _ => some t
  | .pgQuery (PgStmt.setval t) _ => some t
  | _ => none

/-- The tables that the events of `migrateTable` in a trace work on, one entry
for each event. -/
def tablesTouched (trace : List Event) : List String :=
  trace.filterMap Event.table

/-- The entry of `stats` that an event prints in the summary. -/
def Event.printedRows : Event → Option (String × Nat)
  | .console (Msg.tableRows t count) => some (t, count)
  | _ => none

/-- The total that an event prints in the summary. -/
def Event.printedTotal : Event → Option Nat
  | .console (Msg.totalRows n) => some n
  | _ => none

/-- Whether an event is a statement sent to the destination. -/
def Event.isPgQuery : Event → Bool
  | .pgQuery _ _ => true
  | _ => false

/-- Whether an event reads the rows of a source table. -/
def Event.isSqliteAll : Event → Bool
  | .sqliteAll _ _ => true
  | _ => false

/-- Whether an event is an insert that the destination refused. -/
def Event.isFailedInsert : Event → Bool
  | .pgQuery (PgStmt.insert _ _ _) false => true
  | _ => false

/-- Whether an event closes, or tries to close, one of the two connections. -/
def Event.isClose : Event → Bool
  | .sqliteClose _ => true
  | .pgEnd _ => true
  | _ => false

/-- The entries of `stats` printed by the summary, in the order printed. -/
def printedRows (trace : List Event) : List (String × Nat) :=
  trace.filterMap Event.printedRows

/-- The totals printed by the summary. -/
def printedTotals (trace : List Event) : List Nat :=
  trace.filterMap Event.printedTotal

/-- A run of at least one entry for each table, in the order of the tables:
`ks[i] + 1` entries for the table `tables[i]`. -/
def tableBlocks (tables : List String) (ks : List Nat) : List String :=
  (List.zipWith (fun t k => List.replicate (k + 1) t) tables ks).flatten

/-- Whether an event ends the process. -/
def Event.isExit : Event → Bool
  | .processExit _ => true
  | _ => false

/-- An event outside `migrateTable`, the summary and the end of the run: it
works on no table to migrate, sends no insert, prints no line of the summary,
closes no connection and does not end the process. -/
def Event.isQuiet (e : Event) : Prop :=
  e.table = none ∧ e.insertIssued = none ∧ e.printedRows = none ∧ e.printedTotal = none ∧
    e.isClose = false ∧ e.isExit = false

/-- A list of quiet events. -/
def Quiet (ev : List Event) : Prop := ∀ e ∈ ev, e.isQuiet

/-- A list of events that work on no table to migrate, send no insert and
print no line of the summary. -/
def Silent (ev : List Event) : Prop :=
  ∀ e ∈ ev, e.table = none ∧ e.insertIssued = none ∧ e.printedRows = none ∧
    e.printedTotal = none

/-- A list of events without a refused insert. -/
def Clean (ev : List Event) : Prop := ∀ e ∈ ev, e.isFailedInsert = false

/-- The events `ev`, issued after the events `h`, end in a refused insert: the
destination answered the insert of `row` with the error `err`, which was
logged with the row, and no insert was refused before. -/
def AbortedAt (env : Env) (h ev : List Event) (err : Err) : Prop :=
  ∃ ev0 t cols row, Clean ev0 ∧ env.pgQuery (h ++ ev0) (insertStmt t cols row) = .error err ∧
    ev = ev0 ++ [Event.pgQuery (insertStmt t cols row) false,
      Event.console (Msg.insertError t err), Event.console (Msg.rowData row)]

/-- The event of an accepted insert of a row. -/
def insertedEvent (tableName : String) (insertColumns : List String) (row : Row) : Event :=
  Event.pgQuery (insertStmt tableName insertColumns row) true

/-- The events with which every call of `migrateTable` that reads the rows of
the table begins. -/
def readEvents (tableName : String) : List Event :=
  [Event.console (Msg.migratingTable tableName),
   Event.sqliteGet (SqliteStmt.tableExists tableName) true,
   Event.sqliteAll (SqliteStmt.selectAll tableName) true]

/-- The ways a call of `migrateTable` after the events `h` can go, each with its
result and the events it issues. -/
inductive TableRun (env : Env) (tableName : String) (h : List Event) :
    Except Err MigrateResult × List Event → Prop where
  | existsFailed (err : Err)
      (hex : env.sqliteGet (h ++ [Event.console (Msg.migratingTable tableName)])
        (SqliteStmt.tableExists tableName) = .error err) :
      TableRun env tableName h
        (.error err, [Event.console (Msg.migratingTable tableName),
          Event.sqliteGet (SqliteStmt.tableExists tableName) false])
  | missing
      (hex : env.sqliteGet (h ++ [Event.console (Msg.migratingTable tableName)])
        (SqliteStmt.tableExists tableName) = .ok none) :
      TableRun env tableName h
        (.ok (MigrateResult.mk 0), [Event.console (Msg.migratingTable tableName),
          Event.sqliteGet (SqliteStmt.tableExists tableName) true,
          Event.console (Msg.tableMissing tableName)])
  | readFailed (found : Row) (err : Err)
      (hex : env.sqliteGet (h ++ [Event.console (Msg.migratingTable tableName)])
        (SqliteStmt.tableExists tableName) = .ok (some found))
      (hall : env.sqliteAll (h ++ [Event.console (Msg.migratingTable tableName),
          Event.sqliteGet (SqliteStmt.tableExists tableName) true])
        (SqliteStmt.selectAll tableName) = .error err) :
      TableRun env tableName h
        (.error err, [Event.console (Msg.migratingTable tableName),
          Event.sqliteGet (SqliteStmt.tableExists tableName) true,
          Event.sqliteAll (SqliteStmt.selectAll tableName) false])
  | empty (found : Row)
      (hex : env.sqliteGet (h ++ [Event.console (Msg.migratingTable tableName)])
        (SqliteStmt.tableExists tableName) = .ok (some found))
      (hall : env.sqliteAll (h ++ [Event.console (Msg.migratingTable tableName),
          Event.sqliteGet (SqliteStmt.tableExists tableName) true])
        (SqliteStmt.selectAll tableName) = .ok []) :
      TableRun env tableName h
        (.ok (MigrateResult.mk 0), readEvents tableName ++ [Event.console (Msg.tableEmpty tableName)])
  | insertFailed (found first : Row) (rest pre : List Row) (row : Row) (post : List Row) (err : Err)
      (hex : env.sqliteGet (h ++ [Event.console (Msg.migratingTable tableName)])
        (SqliteStmt.tableExists tableName) = .ok (some found))
      (hall : env.sqliteAll (h ++ [Event.console (Msg.migratingTable tableName),
          Event.sqliteGet (SqliteStmt.tableExists tableName) true])
        (SqliteStmt.selectAll tableName) = .ok (first :: rest))
      (hsplit : first :: rest = pre ++ row :: post)
      (hins : env.pgQuery
        (h ++ (readEvents tableName ++ pre.map
          (insertedEvent tableName (selectInsertColumns tableName (Object.keys first)))))
        (insertStmt tableName (selectInsertColumns tableName (Object.keys first)) row)
          = .error err) :
      TableRun env tableName h
        (.error err, readEvents tableName ++
          pre.map (insertedEvent tableName (selectInsertColumns tableName (Object.keys first))) ++
          [Event.pgQuery
              (insertStmt tableName (selectInsertColumns tableName (Object.keys first)) row) false,
            Event.console (Msg.insertError tableName err), Event.console (Msg.rowData row)])
  | keptIds (found first : Row) (rest : List Row)
      (hex : env.sqliteGet (h ++ [Event.console (Msg.migratingTable tableName)])
        (SqliteStmt.tableExists tableName) = .ok (some found))
      (hall : env.sqliteAll (h ++ [Event.console (Msg.migratingTable tableName),
          Event.sqliteGet (SqliteStmt.tableExists tableName) true])
        (SqliteStmt.selectAll tableName) = .ok (first :: rest))
      (hlist : tableName ∈ ["orders", "sales"]) :
      TableRun env tableName h
        (.ok (MigrateResult.mk (first :: rest).length), readEvents tableName ++
          (first :: rest).map
            (insertedEvent tableName (selectInsertColumns tableName (Object.keys first))) ++
          [Event.console (Msg.migratedRows (first :: rest).length tableName)])
  | resetTried (found first : Row) (rest : List Row) (ok : Bool)
      (hex : env.sqliteGet (h ++ [Event.console (Msg.migratingTable tableName)])
        (SqliteStmt.tableExists tableName) = .ok (some found))
      (hall : env.sqliteAll (h ++ [Event.console (Msg.migratingTable tableName),
          Event.sqliteGet (SqliteStmt.tableExists tableName) true])
        (SqliteStmt.selectAll tableName) = .ok (first :: rest))
      (hlist : tableName ∉ ["orders", "sales"])
      (hset : (env.pgQuery
        (h ++ (readEvents tableName ++
          (first :: rest).map
            (insertedEvent tableName (selectInsertColumns tableName (Object.keys first))) ++
          [Event.console (Msg.migratedRows (first :: rest).length tableName)]))
        (PgStmt.setval tableName)).toBool = ok) :
      TableRun env tableName h
        (.ok (MigrateResult.mk (first :: rest).length), readEvents tableName ++
          (first :: rest).map
            (insertedEvent tableName (selectInsertColumns tableName (Object.keys first))) ++
          [Event.console (Msg.migratedRows (first :: rest).length tableName),
           Event.pgQuery (PgStmt.setval tableName) ok,
           Event.console (if ok then Msg.sequenceReset tableName
             else Msg.sequenceNotReset tableName)])

/-! ## The serial ids of the destination -/

/-- Modelled from the spec: the `id` column of a destination table whose ids are
auto-generated, with its sequence `<table>_id_seq` (the schema script
`postgres-schema.sql` and the destination engine are not among the sources).
`ids` are the ids of the rows present, oldest first; `lastValue` is the value
of the sequence, the id it handed out last. -/
structure SerialIds where
  ids : List Int
  lastValue : Int
  deriving DecidableEq, Repr

/-- The largest of a list of ids, if there is one (`MAX(id)`). -/
def maxId : List Int → Option Int
  | [] => none
  | x :: xs => some (xs.foldl max x)

/-- Modelled from the spec: what an event does to the serial ids of a table.
An accepted insert without an `id` column draws the next value of the sequence
for the new row; an accepted insert with a numeric `id` stores that id and
leaves the sequence; an accepted reset sets the sequence to the maximum id
present in the table; no other event changes them.  What a refused insert does
to the sequence is left out: the model is used for calls without a refused
insert, from any state of the table. -/
def SerialIds.apply (tableName : String) (d : SerialIds) : Event → SerialIds
  | .pgQuery (PgStmt.insert t cols values) true =>
    if t = tableName then
      match (cols.zip values).lookup "id" with
      | none => SerialIds.mk (d.ids ++ [d.lastValue + 1]) (d.lastValue + 1)
      | some (JSValue.num n) => SerialIds.mk (d.ids ++ [n]) d.lastValue
      | some _ => d
    else d
  | .pgQuery (PgStmt.setval t) true =>
    if t = tableName then
      match maxId d.ids with
      | some m => SerialIds.mk d.ids m
      | none => d
    else d
  | _ => d

/-- The serial ids of a table after a list of events, from the state `d`. -/
def serialIdsAfter (tableName : String) (d : SerialIds) (ev : List Event) : SerialIds :=
  ev.foldl (SerialIds.apply tableName) d

/-! ## Sample environments -/

/-- A decimal `parseInt` for the sample environments. -/
def sampleParseInt : JSValue → Option Int
  | .num n => some n
  | .str s =>
    if s.data ≠ [] ∧ s.data.all Char.isDigit then
      some (s.data.foldl (fun acc c => acc * 10 + ((c.toNat : Int) - 48)) 0)
    else none
  | _ => none

/-- Sample source table `items`. -/
def sampleItems : List Row :=
  [[("id", .num 1), ("name", .str "Gin"), ("stock", .num 0)],
   [("id", .num 2), ("name", .str "Rum"), ("stock", .null)]]

/-- Sample source table `users`. -/
def sampleUsers : List Row :=
  [[("id", .num 1), ("username", .str "ann"), ("isVerified", .num 1)],
   [("id", .num 2), ("username", .str "bob"), ("isVerified", .null)]]

/-- Sample source table `orders`. -/
def sampleOrders : List Row :=
  [[("id", .num 1001), ("total", .num 50)]]

/-- A sample source store: three tables with rows, `tax_reports` and `sales`
without rows, the other tables absent. -/
def sampleSource (tableName : String) : Option (List Row) :=
  if tableName = "items" then some sampleItems
  else if tableName = "users" then some sampleUsers
  else if tableName = "orders" then some sampleOrders
  else if tableName = "tax_reports" then some []
  else if tableName = "sales" then some []
  else none

/-- The answers of the sample source to `sqliteDb.get`. -/
def sampleSqliteGet (stmt : SqliteStmt) : Except Err (Option Row) :=
  match stmt with
  | .tableExists t =>
    match sampleSource t with
    | some _ => .ok (some [("name", .str t)])
    | none => .ok none
  | .selectCount t =>
    match sampleSource t with
    | some rows => .ok (some [("count", .num rows.length)])
    | none => .error ("no such table: " ++ t)
  | .selectAll t => .error ("not a single-row statement: " ++ t)

/-- The answers of the sample source to `sqliteDb.all`. -/
def sampleSqliteAll (stmt : SqliteStmt) : Except Err (List Row) :=
  match stmt with
  | .selectAll t =>
    match sampleSource t with
    | some rows => .ok rows
    | none => .error ("no such table: " ++ t)
  | _ => .ok []

/-- A destination that accepts every statement and counts the rows it was sent. -/
def samplePgQuery (h : List Event) (stmt : PgStmt) : Except Err (List Row) :=
  match stmt with
  | .version => .ok [[("version", .str "PostgreSQL 16.0")]]
  | .selectCount t => .ok [[("count", .str (toString (insertedRows t h).length))]]
  | _ => .ok []

/-- A run in which every step succeeds. -/
def envOk : Env where
  sqliteOpen := fun _ => .ok ()
  databaseUrl := some "postgres://neon/eazzymart"
  dbSsl := some "true"
  pgConnect := fun _ => .ok ()
  readSchema := fun _ => .ok "CREATE TABLE items (id SERIAL PRIMARY KEY)"
  pgQuery := samplePgQuery
  sqliteGet := fun _ stmt => sampleSqliteGet stmt
  sqliteAll := fun _ stmt => sampleSqliteAll stmt
  sqliteClose := fun _ => .ok ()
  pgEnd := fun _ => .ok ()
  parseInt := sampleParseInt

/-- A destination that refuses the second row of `items`. -/
def badRowPgQuery (h : List Event) (stmt : PgStmt) : Except Err (List Row) :=
  match stmt with
  | .insert t _ values =>
    if t = "items" ∧ JSValue.str "Rum" ∈ values then .error "violates not-null constraint"
    else .ok []
  | _ => samplePgQuery h stmt

/-- A run in which the insert of the second row of `items` fails. -/
def envBadRow : Env where
  sqliteOpen := fun _ => .ok ()
  databaseUrl := some "postgres://neon/eazzymart"
  dbSsl := none
  pgConnect := fun _ => .ok ()
  readSchema := fun _ => .ok "CREATE TABLE items (id SERIAL PRIMARY KEY)"
  pgQuery := badRowPgQuery
  sqliteGet := fun _ stmt => sampleSqliteGet stmt
  sqliteAll := fun _ stmt => sampleSqliteAll stmt
  sqliteClose := fun _ => .ok ()
  pgEnd := fun _ => .ok ()
  parseInt := sampleParseInt

/-- A run without the variable `DATABASE_URL`. -/
def envNoUrl : Env where
  sqliteOpen := fun _ => .ok ()
  databaseUrl := none
  dbSsl := none
  pgConnect := fun _ => .ok ()
  readSchema := fun _ => .ok "CREATE TABLE items (id SERIAL PRIMARY KEY)"
  pgQuery := samplePgQuery
  sqliteGet := fun _ stmt => sampleSqliteGet stmt
  sqliteAll := fun _ stmt => sampleSqliteAll stmt
  sqliteClose := fun _ => .ok ()
  pgEnd := fun _ => .ok ()
  parseInt := sampleParseInt

/-- A destination that refuses every sequence reset. -/
def noSequencePgQuery (h : List Event) (stmt : PgStmt) : Except Err (List Row) :=
  match stmt with
  | .setval t => .error ("relation " ++ t ++ "_id_seq does not exist")
  | _ => samplePgQuery h stmt

/-- A run in which every sequence reset is refused. -/
def envNoSequence : Env where
  sqliteOpen := fun _ => .ok ()
  databaseUrl := some "postgres://neon/eazzymart"
  dbSsl := none
  pgConnect := fun _ => .ok ()
  readSchema := fun _ => .ok "CREATE TABLE items (id SERIAL PRIMARY KEY)"
  pgQuery := noSequencePgQuery
  sqliteGet := fun _ stmt => sampleSqliteGet stmt
  sqliteAll := fun _ stmt => sampleSqliteAll stmt
  sqliteClose := fun _ => .ok ()
  pgEnd := fun _ => .ok ()
  parseInt := sampleParseInt

end Migrate

/-! # Properties -/

namespace Migrate

/-! ## Values sent for a row -/

theorem mem_zip_rowValues (tableName : String) (row : Row) (insertColumns : List String)
    (p : String × JSValue) (hp : p ∈ insertColumns.zip (rowValues tableName insertColumns row)) :
    p.2 = convertValue tableName p.1 (row.get p.1) := by
  induction insertColumns with
  | nil => simp [rowValues] at hp
  | cons c cs ih =>
    simp only [rowValues, List.map_cons, List.zip_cons_cons, List.mem_cons] at hp
    rcases hp with hp | hp
    · subst hp; rfl
    · exact ih hp

theorem length_rowValues (tableName : String) (insertColumns : List String) (row : Row) :
    (rowValues tableName insertColumns row).length = insertColumns.length := by
  simp [rowValues]

theorem length_placeholders (insertColumns : List String) :
    (placeholders insertColumns).length = insertColumns.length := by
  simp [placeholders]

theorem selectInsertColumns_serial (tableName : String) (columns : List String)
    (h : tableName ∉ includeIdTables) :
    selectInsertColumns tableName columns = columns.filter (fun col => decide (col ≠ "id")) := by
  unfold selectInsertColumns
  apply List.filter_congr
  intro col _
  by_cases hc : col = "id" <;> simp [h, hc]

theorem selectInsertColumns_include (tableName : String) (columns : List String)
    (h : tableName ∈ includeIdTables) :
    selectInsertColumns tableName columns = columns := by
  unfold selectInsertColumns
  simp [h]

/-- C3: in table `users` the value sent for column `isVerified`, and in table
`sales` the value sent for column `isDelivered`, is a boolean, never a number:
`true` when the source value is the integer 1 and `false` when it is the
integer 0; for every other pair of table and column an integer is sent as the
same integer. -/
theorem boolean_coercion (tableName : String) (insertColumns : List String) (row : Row)
    (p : String × JSValue)
    (hp : p ∈ insertColumns.zip (rowValues tableName insertColumns row)) :
    ((tableName = "users" ∧ p.1 = "isVerified") ∨ (tableName = "sales" ∧ p.1 = "isDelivered") →
      (∃ b, p.2 = JSValue.bool b) ∧ (∀ n, p.2 ≠ JSValue.num n) ∧
      (row.get p.1 = JSValue.num 1 → p.2 = JSValue.bool true) ∧
      (row.get p.1 = JSValue.num 0 → p.2 = JSValue.bool false)) ∧
    (¬ (tableName = "users" ∧ p.1 = "isVerified") →
      ¬ (tableName = "sales" ∧ p.1 = "isDelivered") →
      ∀ n, row.get p.1 = JSValue.num n → p.2 = JSValue.num n) := by
  have hv := mem_zip_rowValues tableName row insertColumns p hp
  refine ⟨?_, ?_⟩
  · intro hpair
    have hb : p.2 = JSValue.bool (decide (row.get p.1 = JSValue.num 1)) := by
      rw [hv]
      rcases hpair with hpair | hpair
      · simp [convertValue, hpair]
      · unfold convertValue
        rw [if_pos hpair]
        split <;> rfl
    refine ⟨⟨_, hb⟩, ?_, ?_, ?_⟩
    · intro n hn
      rw [hb] at hn
      cases hn
    · intro h1
      rw [hb, h1]
      rfl
    · intro h0
      rw [hb, h0]
      rfl
  · intro h1 h2 n hn
    rw [hv, hn]
    simp [convertValue, h1, h2]

/-- C3, at the first row of the sample table `users`: the flag 1 is sent as `true`. -/
theorem boolean_coercion_witness :
    (List.zip ["username", "isVerified"]
        (rowValues "users" ["username", "isVerified"]
          [("id", .num 1), ("username", .str "ann"), ("isVerified", .num 1)]))
      = [("username", JSValue.str "ann"), ("isVerified", JSValue.bool true)] ∧
    (∃ b, JSValue.bool true = JSValue.bool b) ∧ (∀ n, JSValue.bool true ≠ JSValue.num n) :=
  ⟨by decide,
   ((boolean_coercion "users" ["username", "isVerified"]
      [("id", .num 1), ("username", .str "ann"), ("isVerified", .num 1)]
      ("isVerified", JSValue.bool true) (by decide)).1 (Or.inl ⟨rfl, rfl⟩)).1,
   ((boolean_coercion "users" ["username", "isVerified"]
      [("id", .num 1), ("username", .str "ann"), ("isVerified", .num 1)]
      ("isVerified", JSValue.bool true) (by decide)).1 (Or.inl ⟨rfl, rfl⟩)).2.1⟩

/-! ## The insert loop -/

theorem insertRows_spec (env : Env) (tableName : String) (cols : List String) (rows : List Row) :
    ∀ (h : List Event) (c : Nat),
      insertRows env tableName cols rows h c =
          (.ok (c + rows.length), rows.map (insertedEvent tableName cols)) ∨
      ∃ pre row post err, rows = pre ++ row :: post ∧
        env.pgQuery (h ++ pre.map (insertedEvent tableName cols)) (insertStmt tableName cols row)
          = .error err ∧
        insertRows env tableName cols rows h c =
          (.error err, pre.map (insertedEvent tableName cols) ++
            [Event.pgQuery (insertStmt tableName cols row) false,
             Event.console (Msg.insertError tableName err), Event.console (Msg.rowData row)]) := by
  induction rows with
  | nil => intro h c; left; simp [insertRows]
  | cons row rest ih =>
    intro h c
    cases hq : env.pgQuery h (insertStmt tableName cols row) with
    | error err =>
      right
      refine ⟨[], row, rest, err, rfl, ?_, ?_⟩
      · simpa using hq
      · simp [insertRows, hq]
    | ok res =>
      rcases ih (h ++ [insertedEvent tableName cols row]) (c + 1) with hok | ⟨pre, r, post, err, hrows, herr, hres⟩
      · left
        simp only [insertRows, hq]
        simp only [insertedEvent] at hok
        rw [hok]
        simp [insertedEvent, Nat.add_comm, Nat.add_left_comm]
      · right
        refine ⟨row :: pre, r, post, err, by simp [hrows], ?_, ?_⟩
        · simpa [List.append_assoc] using herr
        · simp only [insertRows, hq]
          simp only [insertedEvent] at hres
          rw [hres]
          simp [insertedEvent]

/-! ## One table -/

theorem migrateTable_run (env : Env) (tableName : String) (h : List Event) :
    TableRun env tableName h (migrateTable env tableName h) := by
  cases hex : env.sqliteGet (h ++ [Event.console (Msg.migratingTable tableName)])
      (SqliteStmt.tableExists tableName) with
  | error err =>
    have := @TableRun.existsFailed env tableName h err hex
    simpa [migrateTable, hex] using this
  | ok found? =>
    cases found? with
    | none =>
      have := @TableRun.missing env tableName h hex
      simpa [migrateTable, hex] using this
    | some found =>
      cases hall : env.sqliteAll (h ++ [Event.console (Msg.migratingTable tableName),
          Event.sqliteGet (SqliteStmt.tableExists tableName) true])
          (SqliteStmt.selectAll tableName) with
      | error err =>
        have := @TableRun.readFailed env tableName h found err hex hall
        simpa [migrateTable, hex, hall] using this
      | ok rows =>
        cases rows with
        | nil =>
          have := @TableRun.empty env tableName h found hex hall
          simpa [migrateTable, hex, hall, readEvents] using this
        | cons first rest =>
          have hspec := insertRows_spec env tableName
            (selectInsertColumns tableName (Object.keys first)) (first :: rest)
            (h ++ readEvents tableName) 0
          rcases hspec with hok | ⟨pre, row, post, err, hsplit, herr, hres⟩
          · by_cases hlist : tableName ∈ ["orders", "sales"]
            · have := @TableRun.keptIds env tableName h found first rest hex hall hlist
              simp only [readEvents] at hok this
              simp only [migrateTable, hex, hall, List.append_assoc, List.cons_append,
                List.nil_append, hok]
              have hc : (["orders", "sales"].contains tableName) = true := by simpa using hlist
              simp only [hc, if_true]
              simpa using this
            · have hc : (["orders", "sales"].contains tableName) = false := by simpa using hlist
              cases hq : env.pgQuery
                (h ++ (readEvents tableName ++
                  (first :: rest).map
                    (insertedEvent tableName (selectInsertColumns tableName (Object.keys first))) ++
                  [Event.console (Msg.migratedRows (first :: rest).length tableName)]))
                (PgStmt.setval tableName) with
              | ok res =>
                have := @TableRun.resetTried env tableName h found first rest true hex hall
                  hlist (by rw [hq]; rfl)
                simp only [readEvents, List.append_assoc, List.cons_append, List.nil_append,
                  zero_add] at hok this hq
                simp only [migrateTable, hex, hall, List.append_assoc, List.cons_append,
                  List.nil_append, hok, hc, Bool.false_eq_true, if_false, zero_add, hq]
                simpa using this
              | error err =>
                have := @TableRun.resetTried env tableName h found first rest false hex hall
                  hlist (by rw [hq]; rfl)
                simp only [readEvents, List.append_assoc, List.cons_append, List.nil_append,
                  zero_add] at hok this hq
                simp only [migrateTable, hex, hall, List.append_assoc, List.cons_append,
                  List.nil_append, hok, hc, Bool.false_eq_true, if_false, zero_add, hq]
                simpa using this
          · have := @TableRun.insertFailed env tableName h found first rest pre row post err
              hex hall hsplit (by simpa [List.append_assoc] using herr)
            simp only [readEvents] at hres this
            simp only [migrateTable, hex, hall, List.append_assoc, List.cons_append,
              List.nil_append, hres]
            simpa using this

theorem migrateTable_of_rows (env : Env) (tableName : String) (h : List Event)
    (found first : Row) (rest : List Row)
    (hex : env.sqliteGet (h ++ [Event.console (Msg.migratingTable tableName)])
      (SqliteStmt.tableExists tableName) = .ok (some found))
    (hall : env.sqliteAll (h ++ [Event.console (Msg.migratingTable tableName),
        Event.sqliteGet (SqliteStmt.tableExists tableName) true])
      (SqliteStmt.selectAll tableName) = .ok (first :: rest)) :
    (∃ pre row post err, first :: rest = pre ++ row :: post ∧
      env.pgQuery
        (h ++ (readEvents tableName ++ pre.map
          (insertedEvent tableName (selectInsertColumns tableName (Object.keys first)))))
        (insertStmt tableName (selectInsertColumns tableName (Object.keys first)) row)
          = .error err ∧
      migrateTable env tableName h =
        (.error err, readEvents tableName ++
          pre.map (insertedEvent tableName (selectInsertColumns tableName (Object.keys first))) ++
          [Event.pgQuery
              (insertStmt tableName (selectInsertColumns tableName (Object.keys first)) row) false,
            Event.console (Msg.insertError tableName err), Event.console (Msg.rowData row)])) ∨
    (tableName ∈ ["orders", "sales"] ∧
      migrateTable env tableName h =
        (.ok (MigrateResult.mk (first :: rest).length), readEvents tableName ++
          (first :: rest).map
            (insertedEvent tableName (selectInsertColumns tableName (Object.keys first))) ++
          [Event.console (Msg.migratedRows (first :: rest).length tableName)])) ∨
    (tableName ∉ ["orders", "sales"] ∧
      migrateTable env tableName h =
        (.ok (MigrateResult.mk (first :: rest).length), readEvents tableName ++
          (first :: rest).map
            (insertedEvent tableName (selectInsertColumns tableName (Object.keys first))) ++
          [Event.console (Msg.migratedRows (first :: rest).length tableName),
           Event.pgQuery (PgStmt.setval tableName)
            (env.pgQuery
              (h ++ (readEvents tableName ++
                (first :: rest).map
                  (insertedEvent tableName (selectInsertColumns tableName (Object.keys first))) ++
                [Event.console (Msg.migratedRows (first :: rest).length tableName)]))
              (PgStmt.setval tableName)).toBool,
           Event.console
            (if (env.pgQuery
              (h ++ (readEvents tableName ++
                (first :: rest).map
                  (insertedEvent tableName (selectInsertColumns tableName (Object.keys first))) ++
                [Event.console (Msg.migratedRows (first :: rest).length tableName)]))
              (PgStmt.setval tableName)).toBool then Msg.sequenceReset tableName
             else Msg.sequenceNotReset tableName)])) := by
  have hrun := migrateTable_run env tableName h
  generalize hr : migrateTable env tableName h = r at hrun
  cases hrun with
  | existsFailed err hex2 => rw [hex] at hex2; cases hex2
  | missing hex2 => rw [hex] at hex2; cases hex2
  | readFailed found2 err hex2 hall2 => rw [hall] at hall2; cases hall2
  | empty found2 hex2 hall2 => rw [hall] at hall2; cases hall2
  | insertFailed found2 first2 rest2 pre row post err hex2 hall2 hsplit hins =>
    rw [hall] at hall2
    cases hall2
    exact Or.inl ⟨pre, row, post, err, hsplit, hins, rfl⟩
  | keptIds found2 first2 rest2 hex2 hall2 hlist =>
    rw [hall] at hall2
    cases hall2
    exact Or.inr (Or.inl ⟨hlist, rfl⟩)
  | resetTried found2 first2 rest2 ok hex2 hall2 hlist hset =>
    rw [hall] at hall2
    cases hall2
    subst hset
    exact Or.inr (Or.inr ⟨hlist, rfl⟩)

/-! ## Reading the events of the insert loop -/

theorem clean_append (a b : List Event) : Clean (a ++ b) ↔ Clean a ∧ Clean b := by
  unfold Clean
  constructor
  · intro hab
    exact ⟨fun e he => hab e (List.mem_append_left b he),
      fun e he => hab e (List.mem_append_right a he)⟩
  · rintro ⟨ha, hb⟩ e he
    rcases List.mem_append.mp he with he | he
    · exact ha e he
    · exact hb e he

theorem clean_map_inserted (tableName : String) (cols : List String) (rows : List Row) :
    Clean (rows.map (insertedEvent tableName cols)) := by
  intro e he
  rcases List.mem_map.mp he with ⟨row, _, rfl⟩
  rfl

theorem insertedRows_append (tableName : String) (a b : List Event) :
    insertedRows tableName (a ++ b) = insertedRows tableName a ++ insertedRows tableName b := by
  simp [insertedRows]

theorem insertsIssued_append (a b : List Event) :
    insertsIssued (a ++ b) = insertsIssued a ++ insertsIssued b := by
  simp [insertsIssued]

theorem tablesEntered_append (a b : List Event) :
    tablesEntered (a ++ b) = tablesEntered a ++ tablesEntered b := by
  simp [tablesEntered]

theorem tablesVerified_append (a b : List Event) :
    tablesVerified (a ++ b) = tablesVerified a ++ tablesVerified b := by
  simp [tablesVerified]

theorem tablesTouched_append (a b : List Event) :
    tablesTouched (a ++ b) = tablesTouched a ++ tablesTouched b := by
  simp [tablesTouched]

theorem insertedRows_map_inserted (tableName : String) (cols : List String) (rows : List Row) :
    insertedRows tableName (rows.map (insertedEvent tableName cols))
      = rows.map (rowValues tableName cols) := by
  induction rows with
  | nil => rfl
  | cons row rest ih =>
    simp only [insertedRows, List.map_cons] at ih ⊢
    simp [List.filterMap_cons, insertedEvent, insertStmt, Event.inserted, ih]

theorem insertedRows_map_inserted_ne (tableName other : String) (cols : List String)
    (rows : List Row) (hne : tableName ≠ other) :
    insertedRows other (rows.map (insertedEvent tableName cols)) = [] := by
  induction rows with
  | nil => rfl
  | cons row rest ih =>
    simp only [insertedRows, List.map_cons] at ih ⊢
    simp [List.filterMap_cons, insertedEvent, insertStmt, Event.inserted, ih, hne]

theorem insertsIssued_map_inserted (tableName : String) (cols : List String) (rows : List Row) :
    insertsIssued (rows.map (insertedEvent tableName cols))
      = rows.map (insertStmt tableName cols) := by
  induction rows with
  | nil => rfl
  | cons row rest ih =>
    simp only [insertsIssued, List.map_cons] at ih ⊢
    simp [List.filterMap_cons, insertedEvent, insertStmt, Event.insertIssued, ih]

theorem tablesEntered_map_inserted (tableName : String) (cols : List String) (rows : List Row) :
    tablesEntered (rows.map (insertedEvent tableName cols)) = [] := by
  induction rows with
  | nil => rfl
  | cons row rest ih =>
    simp only [tablesEntered, List.map_cons] at ih ⊢
    simp [List.filterMap_cons, insertedEvent, Event.entered, ih]

theorem tablesTouched_map_inserted (tableName : String) (cols : List String) (rows : List Row) :
    tablesTouched (rows.map (insertedEvent tableName cols))
      = List.replicate rows.length tableName := by
  induction rows with
  | nil => rfl
  | cons row rest ih =>
    simp only [tablesTouched, List.map_cons] at ih ⊢
    simp [List.filterMap_cons, insertedEvent, insertStmt, Event.table, ih, List.replicate_succ]

theorem printedRows_map_inserted (tableName : String) (cols : List String) (rows : List Row) :
    printedRows (rows.map (insertedEvent tableName cols)) = [] := by
  apply List.filterMap_eq_nil_iff.mpr
  intro e he
  rcases List.mem_map.mp he with ⟨row, _, rfl⟩
  rfl

theorem printedTotals_map_inserted (tableName : String) (cols : List String) (rows : List Row) :
    printedTotals (rows.map (insertedEvent tableName cols)) = [] := by
  apply List.filterMap_eq_nil_iff.mpr
  intro e he
  rcases List.mem_map.mp he with ⟨row, _, rfl⟩
  rfl

theorem not_clean_of_refused (a : List Event) (stmt : PgStmt) (b : List Event)
    (hstmt : ∃ t cols values, stmt = PgStmt.insert t cols values) :
    ¬ Clean (a ++ Event.pgQuery stmt false :: b) := by
  intro hc
  rcases hstmt with ⟨t, cols, values, rfl⟩
  have := hc (Event.pgQuery (PgStmt.insert t cols values) false) (by simp)
  simp [Event.isFailedInsert] at this

/-! ## Claims on one table -/

/-- C1: when the table exists in the source, the source returns N ≥ 1 rows
(`first :: rest`) and no insert issued by the call is refused, `migrateTable`
issues exactly the N insert statements of the source rows, in source order,
returns `{ migrated: N }`, and the destination table gains exactly these N
rows, so a table that was empty before holds exactly N rows afterwards. -/
theorem row_count_preserved (env : Env) (tableName : String) (h : List Event)
    (found first : Row) (rest : List Row)
    (hex : env.sqliteGet (h ++ [Event.console (Msg.migratingTable tableName)])
      (SqliteStmt.tableExists tableName) = .ok (some found))
    (hall : env.sqliteAll (h ++ [Event.console (Msg.migratingTable tableName),
        Event.sqliteGet (SqliteStmt.tableExists tableName) true])
      (SqliteStmt.selectAll tableName) = .ok (first :: rest))
    (hins : Clean (migrateTable env tableName h).2) :
    (migrateTable env tableName h).1 = .ok (MigrateResult.mk (first :: rest).length) ∧
    insertsIssued (migrateTable env tableName h).2
      = (first :: rest).map
          (insertStmt tableName (selectInsertColumns tableName (Object.keys first))) ∧
    insertedRows tableName (h ++ (migrateTable env tableName h).2)
      = insertedRows tableName h ++ (first :: rest).map
          (rowValues tableName (selectInsertColumns tableName (Object.keys first))) ∧
    (insertedRows tableName h = [] →
      (insertedRows tableName (h ++ (migrateTable env tableName h).2)).length
        = (first :: rest).length) := by
  have key : (migrateTable env tableName h).1 = .ok (MigrateResult.mk (first :: rest).length) ∧
      insertsIssued (migrateTable env tableName h).2
        = (first :: rest).map
            (insertStmt tableName (selectInsertColumns tableName (Object.keys first))) ∧
      insertedRows tableName (migrateTable env tableName h).2
        = (first :: rest).map
            (rowValues tableName (selectInsertColumns tableName (Object.keys first))) := by
    rcases migrateTable_of_rows env tableName h found first rest hex hall with
      ⟨pre, row, post, err, _, _, hr⟩ | ⟨_, hr⟩ | ⟨_, hr⟩
    · rw [hr] at hins
      exact absurd hins (by
        simpa [List.append_assoc] using
          not_clean_of_refused (readEvents tableName ++ pre.map (insertedEvent tableName
            (selectInsertColumns tableName (Object.keys first)))) _ _ ⟨_, _, _, rfl⟩)
    · rw [hr]
      refine ⟨rfl, ?_, ?_⟩
      · rw [insertsIssued_append, insertsIssued_append, insertsIssued_map_inserted]
        simp [insertsIssued, readEvents, Event.insertIssued]
      · rw [insertedRows_append, insertedRows_append, insertedRows_map_inserted]
        simp [insertedRows, readEvents, Event.inserted]
    · rw [hr]
      refine ⟨rfl, ?_, ?_⟩
      · rw [insertsIssued_append, insertsIssued_append, insertsIssued_map_inserted]
        simp [insertsIssued, readEvents, Event.insertIssued]
      · rw [insertedRows_append, insertedRows_append, insertedRows_map_inserted]
        simp [insertedRows, readEvents, Event.inserted]
  refine ⟨key.1, key.2.1, ?_, ?_⟩
  · rw [insertedRows_append, key.2.2]
  · intro hempty
    rw [insertedRows_append, key.2.2, hempty]
    simp

/-- C1, on the sample table `items`: two rows, two inserts, `{ migrated: 2 }`. -/
theorem row_count_preserved_witness :
    Clean (migrateTable envOk "items" []).2 ∧
    (migrateTable envOk "items" []).1 = .ok (MigrateResult.mk 2) ∧
    (insertedRows "items" ([] ++ (migrateTable envOk "items" []).2)).length = 2 :=
  ⟨by unfold Clean; decide,
   (row_count_preserved envOk "items" [] [("name", .str "items")]
      [("id", .num 1), ("name", .str "Gin"), ("stock", .num 0)]
      [[("id", .num 2), ("name", .str "Rum"), ("stock", .null)]]
      rfl rfl (by unfold Clean; decide)).1,
   (row_count_preserved envOk "items" [] [("name", .str "items")]
      [("id", .num 1), ("name", .str "Gin"), ("stock", .num 0)]
      [[("id", .num 2), ("name", .str "Rum"), ("stock", .null)]]
      rfl rfl (by unfold Clean; decide)).2.2.2 rfl⟩

theorem insertsIssued_migrateTable_subset (env : Env) (tableName : String) (h : List Event)
    (found first : Row) (rest : List Row)
    (hex : env.sqliteGet (h ++ [Event.console (Msg.migratingTable tableName)])
      (SqliteStmt.tableExists tableName) = .ok (some found))
    (hall : env.sqliteAll (h ++ [Event.console (Msg.migratingTable tableName),
        Event.sqliteGet (SqliteStmt.tableExists tableName) true])
      (SqliteStmt.selectAll tableName) = .ok (first :: rest))
    (stmt : PgStmt) (hstmt : stmt ∈ insertsIssued (migrateTable env tableName h).2) :
    ∃ row ∈ first :: rest,
      stmt = insertStmt tableName (selectInsertColumns tableName (Object.keys first)) row := by
  rcases migrateTable_of_rows env tableName h found first rest hex hall with
    ⟨pre, row, post, err, hsplit, _, hr⟩ | ⟨_, hr⟩ | ⟨_, hr⟩
  · rw [hr, insertsIssued_append, insertsIssued_append, insertsIssued_map_inserted] at hstmt
    simp only [insertsIssued, readEvents, Event.insertIssued, List.filterMap_cons,
      List.filterMap_nil, List.nil_append, List.mem_append, List.mem_map, insertStmt,
      List.mem_singleton] at hstmt
    rcases hstmt with ⟨r, hr1, hr2⟩ | hlast
    · exact ⟨r, by rw [hsplit]; exact List.mem_append_left _ hr1, hr2.symm⟩
    · exact ⟨row, by rw [hsplit]; simp, hlast⟩
  · rw [hr, insertsIssued_append, insertsIssued_append, insertsIssued_map_inserted] at hstmt
    simp only [insertsIssued, readEvents, Event.insertIssued, List.filterMap_cons,
      List.filterMap_nil, List.nil_append, List.append_nil, List.mem_map] at hstmt
    rcases hstmt with ⟨r, hr1, hr2⟩
    exact ⟨r, hr1, hr2.symm⟩
  · rw [hr, insertsIssued_append, insertsIssued_append, insertsIssued_map_inserted] at hstmt
    simp only [insertsIssued, readEvents, Event.insertIssued, List.filterMap_cons,
      List.filterMap_nil, List.nil_append, List.append_nil, List.mem_map] at hstmt
    rcases hstmt with ⟨r, hr1, hr2⟩
    exact ⟨r, hr1, hr2.symm⟩

/-- C4: for a table whose source read returns the non-empty list `first :: rest`,
the insert columns are the keys of the first row in their order, without `id`
exactly when the table is not `orders` or `sales`; every insert the call issues
uses this column list, and has as many placeholders and as many values as it
has columns. -/
theorem insert_column_selection (env : Env) (tableName : String) (h : List Event)
    (found first : Row) (rest : List Row)
    (hex : env.sqliteGet (h ++ [Event.console (Msg.migratingTable tableName)])
      (SqliteStmt.tableExists tableName) = .ok (some found))
    (hall : env.sqliteAll (h ++ [Event.console (Msg.migratingTable tableName),
        Event.sqliteGet (SqliteStmt.tableExists tableName) true])
      (SqliteStmt.selectAll tableName) = .ok (first :: rest)) :
    (tableName ∉ ["orders", "sales"] →
      selectInsertColumns tableName (Object.keys first)
        = (Object.keys first).filter (fun col => decide (col ≠ "id"))) ∧
    (tableName ∈ ["orders", "sales"] →
      selectInsertColumns tableName (Object.keys first) = Object.keys first) ∧
    (∀ t cols values, PgStmt.insert t cols values ∈ insertsIssued (migrateTable env tableName h).2 →
      t = tableName ∧ cols = selectInsertColumns tableName (Object.keys first) ∧
      (placeholders cols).length = cols.length ∧ values.length = cols.length) := by
  refine ⟨fun hn => selectInsertColumns_serial tableName _ hn,
    fun hi => selectInsertColumns_include tableName _ hi, ?_⟩
  intro t cols values hmem
  rcases insertsIssued_migrateTable_subset env tableName h found first rest hex hall _ hmem with
    ⟨row, _, hrow⟩
  simp only [insertStmt, PgStmt.insert.injEq] at hrow
  rcases hrow with ⟨rfl, rfl, rfl⟩
  exact ⟨rfl, rfl, length_placeholders _, length_rowValues _ _ _⟩

/-- C4, on the sample table `users`: `id` is left out, two columns, two
placeholders, two values. -/
theorem insert_column_selection_witness :
    "users" ∉ ["orders", "sales"] ∧
    selectInsertColumns "users" (Object.keys [("id", .num 1), ("username", .str "ann"),
      ("isVerified", .num 1)]) = ["username", "isVerified"] ∧
    PgStmt.insert "users" ["username", "isVerified"] [.str "bob", .bool false]
      ∈ insertsIssued (migrateTable envOk "users" []).2 ∧
    (placeholders ["username", "isVerified"]).length = ["username", "isVerified"].length :=
  ⟨by decide,
   (insert_column_selection envOk "users" [] [("name", .str "users")]
      [("id", .num 1), ("username", .str "ann"), ("isVerified", .num 1)]
      [[("id", .num 2), ("username", .str "bob"), ("isVerified", .null)]] rfl rfl).1 (by decide),
   by decide,
   ((insert_column_selection envOk "users" [] [("name", .str "users")]
      [("id", .num 1), ("username", .str "ann"), ("isVerified", .num 1)]
      [[("id", .num 2), ("username", .str "bob"), ("isVerified", .null)]] rfl rfl).2.2
      "users" ["username", "isVerified"] [.str "bob", .bool false] (by decide)).2.2.1⟩

/-! ## The object `stats` -/

theorem lookup_replace (tableName : String) (count : Nat) (stats : Stats)
    (hany : stats.any (fun p => p.1 == tableName) = true) :
    (stats.map (fun p => if p.1 == tableName then (tableName, count) else p)).lookup tableName
      = some count := by
  induction stats with
  | nil => simp at hany
  | cons p rest ih =>
    by_cases hp : p.1 = tableName
    · have hb : (p.1 == tableName) = true := by simpa using hp
      simp only [List.map_cons, hb, if_true]
      rw [List.lookup_cons]
      simp
    · have hrest : rest.any (fun p => p.1 == tableName) = true := by
        simpa [hp] using hany
      have hne : (tableName == p.1) = false := by
        simpa using fun hcontra => hp hcontra.symm
      simp only [List.map_cons, beq_iff_eq, hp, if_false]
      rw [show p = (p.1, p.2) from rfl, List.lookup_cons, hne]
      simpa using ih hrest

theorem lookup_append_new (tableName : String) (count : Nat) (stats : Stats)
    (hany : stats.any (fun p => p.1 == tableName) = false) :
    (stats ++ [(tableName, count)]).lookup tableName = some count := by
  induction stats with
  | nil => simp [List.lookup]
  | cons p rest ih =>
    have hp : ¬ p.1 = tableName := by
      intro hcontra
      simp [hcontra] at hany
    have hrest : rest.any (fun p => p.1 == tableName) = false := by
      simpa [hp] using hany
    have hne : (tableName == p.1) = false := by
      simpa using fun hcontra => hp hcontra.symm
    rw [List.cons_append, show p = (p.1, p.2) from rfl, List.lookup_cons, hne]
    exact ih hrest

theorem lookup_set (stats : Stats) (tableName : String) (count : Nat) :
    (Stats.set stats tableName count).lookup tableName = some count := by
  unfold Stats.set
  split
  · rename_i hany
    exact lookup_replace tableName count stats hany
  · rename_i hany
    exact lookup_append_new tableName count stats (Bool.eq_false_iff.mpr hany)

/-- C6: when the existence check finds no table, `migrateTable` returns
`{ migrated: 0 }` without raising; it issues nothing but its first log line, the
existence check and the log line of the skip, so it reads no rows and sends no
insert and no sequence reset; `migrate` then stores 0 for the table in `stats`
and goes on with the next table. -/
theorem missing_table_skipped (env : Env) (tableName : String) (h : List Event)
    (hex : env.sqliteGet (h ++ [Event.console (Msg.migratingTable tableName)])
      (SqliteStmt.tableExists tableName) = .ok none) :
    migrateTable env tableName h =
      (.ok (MigrateResult.mk 0), [Event.console (Msg.migratingTable tableName),
        Event.sqliteGet (SqliteStmt.tableExists tableName) true,
        Event.console (Msg.tableMissing tableName)]) ∧
    (∀ e ∈ (migrateTable env tableName h).2, e.isSqliteAll = false ∧ e.isPgQuery = false) ∧
    (∀ rest stats, migrateTables env (tableName :: rest) h stats =
      ((migrateTables env rest (h ++ (migrateTable env tableName h).2)
          (Stats.set stats tableName 0)).1,
        (migrateTable env tableName h).2 ++
          (migrateTables env rest (h ++ (migrateTable env tableName h).2)
            (Stats.set stats tableName 0)).2)) ∧
    (∀ stats, (Stats.set stats tableName 0).lookup tableName = some 0) := by
  have hr : migrateTable env tableName h =
      (.ok (MigrateResult.mk 0), [Event.console (Msg.migratingTable tableName),
        Event.sqliteGet (SqliteStmt.tableExists tableName) true,
        Event.console (Msg.tableMissing tableName)]) := by
    simp [migrateTable, hex]
  refine ⟨hr, ?_, ?_, fun stats => lookup_set stats tableName 0⟩
  · intro e he
    rw [hr] at he
    simp only [List.mem_cons, List.mem_singleton, List.not_mem_nil, or_false] at he
    rcases he with rfl | rfl | rfl <;> exact ⟨rfl, rfl⟩
  · intro rest stats
    simp only [migrateTables, hr]

/-- C6, on the sample source, which has no table `stock_entries`. -/
theorem missing_table_skipped_witness :
    envOk.sqliteGet ([] ++ [Event.console (Msg.migratingTable "stock_entries")])
      (SqliteStmt.tableExists "stock_entries") = .ok none ∧
    migrateTable envOk "stock_entries" [] =
      (.ok (MigrateResult.mk 0), [Event.console (Msg.migratingTable "stock_entries"),
        Event.sqliteGet (SqliteStmt.tableExists "stock_entries") true,
        Event.console (Msg.tableMissing "stock_entries")]) :=
  ⟨rfl, (missing_table_skipped envOk "stock_entries" [] rfl).1⟩

/-- C8, as the claim states it, fails: in table `users` a row whose `isVerified`
is null is sent with the boolean `false` in that column, not with null. -/
theorem null_flag_sent_as_false :
    Row.get [("id", .num 2), ("username", .str "bob"), ("isVerified", .null)] "isVerified"
      = JSValue.null ∧
    selectInsertColumns "users"
      (Object.keys [("id", .num 2), ("username", .str "bob"), ("isVerified", .null)])
      = ["username", "isVerified"] ∧
    rowValues "users" ["username", "isVerified"]
      [("id", .num 2), ("username", .str "bob"), ("isVerified", .null)]
      = [JSValue.str "bob", JSValue.bool false] := by
  decide

/-- C8, amended: for a pair of table and column that is not one of the two
boolean coercions, a source value that is null or undefined is sent as null and
every other value is sent unchanged; for the two coercion pairs a null or
undefined source value is sent as the boolean `false`. -/
theorem null_and_identity (tableName : String) (insertColumns : List String) (row : Row)
    (p : String × JSValue)
    (hp : p ∈ insertColumns.zip (rowValues tableName insertColumns row)) :
    (¬ (tableName = "users" ∧ p.1 = "isVerified") →
      ¬ (tableName = "sales" ∧ p.1 = "isDelivered") →
      (row.get p.1 = JSValue.null ∨ row.get p.1 = JSValue.undefined → p.2 = JSValue.null) ∧
      (row.get p.1 ≠ JSValue.null → row.get p.1 ≠ JSValue.undefined → p.2 = row.get p.1)) ∧
    ((tableName = "users" ∧ p.1 = "isVerified") ∨ (tableName = "sales" ∧ p.1 = "isDelivered") →
      row.get p.1 = JSValue.null ∨ row.get p.1 = JSValue.undefined →
      p.2 = JSValue.bool false) := by
  have hv := mem_zip_rowValues tableName row insertColumns p hp
  refine ⟨?_, ?_⟩
  · intro h1 h2
    refine ⟨?_, ?_⟩
    · intro hnull
      rw [hv]
      simp [convertValue, h1, h2, hnull]
    · intro hn hu
      rw [hv]
      simp [convertValue, h1, h2, hn, hu]
  · intro hpair hnull
    rw [hv]
    rcases hpair with hpair | hpair
    · unfold convertValue
      rw [if_pos hpair]
      rcases hnull with hnull | hnull <;> rw [hnull] <;> rfl
    · unfold convertValue
      rw [if_pos hpair]
      rcases hnull with hnull | hnull <;> rw [hnull] <;> split <;> rfl

/-- C8 amended, on the second row of the sample table `items`: the null
`stock` is sent as null. -/
theorem null_and_identity_witness :
    ("stock", JSValue.null) ∈ List.zip ["name", "stock"]
      (rowValues "items" ["name", "stock"]
        [("id", .num 2), ("name", .str "Rum"), ("stock", .null)]) ∧
    Row.get [("id", .num 2), ("name", .str "Rum"), ("stock", .null)] "stock" = JSValue.null ∧
    JSValue.null = JSValue.null :=
  ⟨by decide, by decide,
   ((null_and_identity "items" ["name", "stock"]
      [("id", .num 2), ("name", .str "Rum"), ("stock", .null)] ("stock", JSValue.null)
      (by decide)).1 (by decide) (by decide)).1 (Or.inl (by decide))⟩

/-! ## The serial ids after a table -/

theorem lookup_zip_none (k : String) (cols : List String) :
    ∀ values : List JSValue, k ∉ cols → (cols.zip values).lookup k = none := by
  induction cols with
  | nil => intro values _; rfl
  | cons c cs ih =>
    intro values hk
    cases values with
    | nil => rfl
    | cons v vs =>
      have hne : (k == c) = false := by
        simpa using fun hcontra : k = c => hk (hcontra ▸ List.mem_cons_self c cs)
      rw [List.zip_cons_cons, List.lookup_cons, hne]
      exact ih vs (fun hmem => hk (List.mem_cons_of_mem c hmem))

theorem id_not_selected (tableName : String) (columns : List String)
    (h : tableName ∉ includeIdTables) : "id" ∉ selectInsertColumns tableName columns := by
  rw [selectInsertColumns_serial tableName columns h]
  intro hmem
  have := (List.mem_filter.mp hmem).2
  simp at this

theorem foldl_max_spec (xs : List Int) :
    ∀ x : Int, (∀ y ∈ x :: xs, y ≤ xs.foldl max x) ∧ xs.foldl max x ∈ x :: xs := by
  induction xs with
  | nil =>
    intro x
    exact ⟨fun y hy => by simp at hy; simp [hy], by simp⟩
  | cons z zs ih =>
    intro x
    rcases ih (max x z) with ⟨hle, hmem⟩
    refine ⟨?_, ?_⟩
    · intro y hy
      simp only [List.foldl_cons]
      rcases List.mem_cons.mp hy with rfl | hy
      · exact le_trans (le_max_left _ _) (hle _ (List.mem_cons_self _ _))
      · rcases List.mem_cons.mp hy with rfl | hy
        · exact le_trans (le_max_right _ _) (hle _ (List.mem_cons_self _ _))
        · exact hle y (List.mem_cons_of_mem _ hy)
    · simp only [List.foldl_cons]
      rcases List.mem_cons.mp hmem with heq | hin
      · rw [heq]
        rcases max_choice x z with hc | hc
        · rw [hc]; exact List.mem_cons_self _ _
        · rw [hc]; exact List.mem_cons_of_mem _ (List.mem_cons_self _ _)
      · exact List.mem_cons_of_mem _ (List.mem_cons_of_mem _ hin)

theorem maxId_spec (l : List Int) (m : Int) (h : maxId l = some m) :
    (∀ x ∈ l, x ≤ m) ∧ m ∈ l := by
  cases l with
  | nil => cases h
  | cons x xs =>
    simp only [maxId, Option.some.injEq] at h
    rw [← h]
    exact foldl_max_spec xs x

theorem serialIdsAfter_append (tableName : String) (d : SerialIds) (a b : List Event) :
    serialIdsAfter tableName d (a ++ b)
      = serialIdsAfter tableName (serialIdsAfter tableName d a) b := by
  simp [serialIdsAfter, List.foldl_append]

theorem serialIdsAfter_inserts (tableName : String) (cols : List String) (hid : "id" ∉ cols)
    (rows : List Row) :
    ∀ d : SerialIds, ∃ newIds : List Int, newIds.length = rows.length ∧
      serialIdsAfter tableName d (rows.map (insertedEvent tableName cols))
        = SerialIds.mk (d.ids ++ newIds) (d.lastValue + rows.length) ∧
      ∀ id ∈ newIds, d.lastValue < id ∧ id ≤ d.lastValue + rows.length := by
  induction rows with
  | nil =>
    intro d
    exact ⟨[], rfl, by simp [serialIdsAfter], fun _ hid2 => by cases hid2⟩
  | cons row rest ih =>
    intro d
    have hstep : SerialIds.apply tableName d (insertedEvent tableName cols row)
        = SerialIds.mk (d.ids ++ [d.lastValue + 1]) (d.lastValue + 1) := by
      simp only [insertedEvent, insertStmt, SerialIds.apply, if_true,
        lookup_zip_none "id" cols _ hid]
    rcases ih (SerialIds.mk (d.ids ++ [d.lastValue + 1]) (d.lastValue + 1)) with
      ⟨newIds, hlen, hafter, hbound⟩
    refine ⟨(d.lastValue + 1) :: newIds, by simp [hlen], ?_, ?_⟩
    · simp only [serialIdsAfter, List.map_cons, List.foldl_cons, hstep] at hafter ⊢
      rw [hafter]
      simp only [List.append_assoc, List.singleton_append, List.length_cons, Nat.cast_add,
        Nat.cast_one, SerialIds.mk.injEq, true_and]
      omega
    · intro id hmem
      rcases List.mem_cons.mp hmem with rfl | hmem
      · simp only [List.length_cons, Nat.cast_add, Nat.cast_one]
        omega
      · have := hbound id hmem
        simp only [List.length_cons, Nat.cast_add, Nat.cast_one] at this ⊢
        omega

/-- C9, as the claim states it, fails: the sample table `tax_reports` is not
`orders` or `sales` and all its source rows (there are none) were inserted, but
`migrateTable` returns before the sequence reset and sends the destination
nothing. -/
theorem empty_table_not_reset :
    "tax_reports" ∉ ["orders", "sales"] ∧
    envOk.sqliteAll ([] ++ [Event.console (Msg.migratingTable "tax_reports"),
        Event.sqliteGet (SqliteStmt.tableExists "tax_reports") true])
      (SqliteStmt.selectAll "tax_reports") = .ok [] ∧
    migrateTable envOk "tax_reports" [] =
      (.ok (MigrateResult.mk 0), [Event.console (Msg.migratingTable "tax_reports"),
        Event.sqliteGet (SqliteStmt.tableExists "tax_reports") true,
        Event.sqliteAll (SqliteStmt.selectAll "tax_reports") true,
        Event.console (Msg.tableEmpty "tax_reports")]) ∧
    (∀ e ∈ (migrateTable envOk "tax_reports" []).2, e.isPgQuery = false) :=
  ⟨by decide, rfl, rfl, by decide⟩

/-- C9, amended: for a table that is not `orders` or `sales`, whose source read
returns at least one row and whose rows were all inserted, `migrateTable` sends,
after the last insert, the statement that sets the sequence `<table>_id_seq` to
the maximum `id` of the destination table; after the call the value of the
sequence is at least every id the call inserted, whatever the table held
before and whether the destination accepts the reset or refuses it, and when
it accepts the reset the sequence is at the maximum id present; the call
returns the migrated count whether the reset is accepted or refused; for
`orders` and `sales` no reset is sent. -/
theorem sequence_reset_after_rows (env : Env) (tableName : String) (h : List Event)
    (found first : Row) (rest : List Row)
    (hex : env.sqliteGet (h ++ [Event.console (Msg.migratingTable tableName)])
      (SqliteStmt.tableExists tableName) = .ok (some found))
    (hall : env.sqliteAll (h ++ [Event.console (Msg.migratingTable tableName),
        Event.sqliteGet (SqliteStmt.tableExists tableName) true])
      (SqliteStmt.selectAll tableName) = .ok (first :: rest))
    (hins : Clean (migrateTable env tableName h).2) :
    (migrateTable env tableName h).1 = .ok (MigrateResult.mk (first :: rest).length) ∧
    (tableName ∉ ["orders", "sales"] →
      ∃ ok, ok = (env.pgQuery
          (h ++ (readEvents tableName ++
            (first :: rest).map
              (insertedEvent tableName (selectInsertColumns tableName (Object.keys first))) ++
            [Event.console (Msg.migratedRows (first :: rest).length tableName)]))
          (PgStmt.setval tableName)).toBool ∧
        (migrateTable env tableName h).2 = readEvents tableName ++
          (first :: rest).map
            (insertedEvent tableName (selectInsertColumns tableName (Object.keys first))) ++
          [Event.console (Msg.migratedRows (first :: rest).length tableName),
           Event.pgQuery (PgStmt.setval tableName) ok,
           Event.console (if ok then Msg.sequenceReset tableName
             else Msg.sequenceNotReset tableName)]) ∧
    (tableName ∉ ["orders", "sales"] → ∀ d : SerialIds,
      ∃ newIds : List Int, newIds.length = (first :: rest).length ∧
        (serialIdsAfter tableName d (migrateTable env tableName h).2).ids = d.ids ++ newIds ∧
        (∀ id ∈ newIds,
          id ≤ (serialIdsAfter tableName d (migrateTable env tableName h).2).lastValue) ∧
        (Event.pgQuery (PgStmt.setval tableName) true ∈ (migrateTable env tableName h).2 →
          maxId (serialIdsAfter tableName d (migrateTable env tableName h).2).ids
            = some (serialIdsAfter tableName d (migrateTable env tableName h).2).lastValue)) ∧
    (tableName ∈ ["orders", "sales"] →
      ∀ t ok, Event.pgQuery (PgStmt.setval t) ok ∉ (migrateTable env tableName h).2) ∧
    (PgStmt.setval tableName).text =
      "SELECT setval(\x27" ++ tableName ++ "_id_seq\x27, (SELECT MAX(id) FROM " ++ tableName
        ++ "), true)" := by
  rcases migrateTable_of_rows env tableName h found first rest hex hall with
    ⟨pre, row, post, err, _, _, hr⟩ | ⟨hlist, hr⟩ | ⟨hlist, hr⟩
  · rw [hr] at hins
    exact absurd hins (by
      simpa [List.append_assoc] using
        not_clean_of_refused (readEvents tableName ++ pre.map (insertedEvent tableName
          (selectInsertColumns tableName (Object.keys first)))) _ _ ⟨_, _, _, rfl⟩)
  · refine ⟨by rw [hr], fun hn => absurd hlist hn, fun hn => absurd hlist hn, ?_, rfl⟩
    intro _ t ok hmem
    rw [hr] at hmem
    simp [readEvents, insertedEvent, insertStmt] at hmem
  · refine ⟨by rw [hr], fun _ => ⟨_, rfl, by rw [hr]⟩, ?_, fun hi => absurd hi hlist, rfl⟩
    intro _ d
    rw [hr]
    generalize (env.pgQuery
      (h ++ (readEvents tableName ++
        (first :: rest).map
          (insertedEvent tableName (selectInsertColumns tableName (Object.keys first))) ++
        [Event.console (Msg.migratedRows (first :: rest).length tableName)]))
      (PgStmt.setval tableName)).toBool = ok
    rcases serialIdsAfter_inserts tableName
      (selectInsertColumns tableName (Object.keys first))
      (id_not_selected tableName (Object.keys first) hlist) (first :: rest) d with
      ⟨newIds, hlen, hafter, hbound⟩
    have hread : serialIdsAfter tableName d (readEvents tableName) = d := rfl
    have hne : newIds ≠ [] := by
      intro hcontra
      rw [hcontra] at hlen
      cases hlen
    refine ⟨newIds, hlen, ?_⟩
    simp only [serialIdsAfter_append, hread, hafter]
    cases ok with
    | false =>
      have htail : ∀ d1 : SerialIds, serialIdsAfter tableName d1
          [Event.console (Msg.migratedRows (first :: rest).length tableName),
            Event.pgQuery (PgStmt.setval tableName) false,
            Event.console (if false = true then Msg.sequenceReset tableName
              else Msg.sequenceNotReset tableName)] = d1 := fun _ => rfl
      rw [htail]
      refine ⟨rfl, fun id hmem => (hbound id hmem).2, ?_⟩
      intro hmem
      simp [readEvents, insertedEvent, insertStmt] at hmem
    | true =>
      cases hmax : maxId (d.ids ++ newIds) with
      | none =>
        cases hd : d.ids ++ newIds with
        | nil =>
          exact absurd (List.append_eq_nil.mp hd).2 hne
        | cons x xs =>
          rw [hd] at hmax
          cases hmax
      | some m =>
        have htail : serialIdsAfter tableName
            (SerialIds.mk (d.ids ++ newIds) (d.lastValue + (first :: rest).length))
            [Event.console (Msg.migratedRows (first :: rest).length tableName),
              Event.pgQuery (PgStmt.setval tableName) true,
              Event.console (if true = true then Msg.sequenceReset tableName
                else Msg.sequenceNotReset tableName)]
            = SerialIds.mk (d.ids ++ newIds) m := by
          simp [serialIdsAfter, SerialIds.apply, hmax]
        rw [htail]
        refine ⟨rfl, ?_, fun _ => hmax⟩
        intro id hmem
        exact (maxId_spec _ m hmax).1 id (List.mem_append_right _ hmem)

/-- C9 amended, on the sample table `items`: two rows, then the reset; in a
table that was empty the two rows get the ids 1 and 2 and the sequence ends
at 2, also when the destination refuses the reset, and the call returns
`{ migrated: 2 }` there as well. -/
theorem sequence_reset_after_rows_witness :
    (Event.pgQuery (PgStmt.setval "items") false ∈ (migrateTable envNoSequence "items" []).2 ∧
      (migrateTable envNoSequence "items" []).1 = .ok (MigrateResult.mk 2) ∧
      serialIdsAfter "items" (SerialIds.mk [] 0) (migrateTable envNoSequence "items" []).2
        = SerialIds.mk [1, 2] 2) ∧
    Clean (migrateTable envOk "items" []).2 ∧ "items" ∉ ["orders", "sales"] ∧
    (migrateTable envOk "items" []).1 = .ok (MigrateResult.mk 2) ∧
    Event.pgQuery (PgStmt.setval "items") true ∈ (migrateTable envOk "items" []).2 ∧
    serialIdsAfter "items" (SerialIds.mk [] 0) (migrateTable envOk "items" []).2
      = SerialIds.mk [1, 2] 2 ∧
    ∃ newIds : List Int, newIds.length = 2 ∧
      (serialIdsAfter "items" (SerialIds.mk [] 0) (migrateTable envOk "items" []).2).ids
        = [] ++ newIds ∧
      (∀ id ∈ newIds,
        id ≤ (serialIdsAfter "items" (SerialIds.mk [] 0)
          (migrateTable envOk "items" []).2).lastValue) ∧
      (Event.pgQuery (PgStmt.setval "items") true ∈ (migrateTable envOk "items" []).2 →
        maxId (serialIdsAfter "items" (SerialIds.mk [] 0) (migrateTable envOk "items" []).2).ids
          = some (serialIdsAfter "items" (SerialIds.mk [] 0)
            (migrateTable envOk "items" []).2).lastValue) :=
  ⟨⟨by decide,
    (sequence_reset_after_rows envNoSequence "items" [] [("name", .str "items")]
      [("id", .num 1), ("name", .str "Gin"), ("stock", .num 0)]
      [[("id", .num 2), ("name", .str "Rum"), ("stock", .null)]]
      rfl rfl (by unfold Clean; decide)).1,
    by decide⟩,
   by unfold Clean; decide, by decide,
   (sequence_reset_after_rows envOk "items" [] [("name", .str "items")]
      [("id", .num 1), ("name", .str "Gin"), ("stock", .num 0)]
      [[("id", .num 2), ("name", .str "Rum"), ("stock", .null)]]
      rfl rfl (by unfold Clean; decide)).1,
   by decide, by decide,
   (sequence_reset_after_rows envOk "items" [] [("name", .str "items")]
      [("id", .num 1), ("name", .str "Gin"), ("stock", .num 0)]
      [[("id", .num 2), ("name", .str "Rum"), ("stock", .null)]]
      rfl rfl (by unfold Clean; decide)).2.2.1 (by decide) (SerialIds.mk [] 0)⟩

/-! ## Verification -/

theorem quiet_nil : Quiet [] := by
  intro e he
  cases he

theorem quiet_cons (e : Event) (ev : List Event) (he : e.isQuiet) (hev : Quiet ev) :
    Quiet (e :: ev) := by
  intro x hx
  rcases List.mem_cons.mp hx with rfl | hx
  · exact he
  · exact hev x hx

theorem quiet_append (a b : List Event) (ha : Quiet a) (hb : Quiet b) : Quiet (a ++ b) := by
  intro e he
  rcases List.mem_append.mp he with he | he
  · exact ha e he
  · exact hb e he

theorem verifyTable_spec (env : Env) (tableName : String) (h : List Event) :
    Quiet (verifyTable env tableName h).2 ∧
      tablesVerified (verifyTable env tableName h).2 = [tableName] := by
  unfold verifyTable
  cases env.sqliteGet h (SqliteStmt.selectCount tableName) with
  | error err =>
    exact ⟨quiet_cons _ _ ⟨rfl, rfl, rfl, rfl, rfl, rfl⟩ quiet_nil, rfl⟩
  | ok sqliteCount =>
    simp only
    cases env.pgQuery (h ++ [Event.sqliteGet (SqliteStmt.selectCount tableName) true])
        (PgStmt.selectCount tableName) with
    | error err =>
      exact ⟨quiet_cons _ _ ⟨rfl, rfl, rfl, rfl, rfl, rfl⟩
        (quiet_cons _ _ ⟨rfl, rfl, rfl, rfl, rfl, rfl⟩ quiet_nil), rfl⟩
    | ok pgRows =>
      simp only
      split
      · exact ⟨quiet_cons _ _ ⟨rfl, rfl, rfl, rfl, rfl, rfl⟩
          (quiet_cons _ _ ⟨rfl, rfl, rfl, rfl, rfl, rfl⟩
            (quiet_cons _ _ ⟨rfl, rfl, rfl, rfl, rfl, rfl⟩ quiet_nil)), rfl⟩
      · exact ⟨quiet_cons _ _ ⟨rfl, rfl, rfl, rfl, rfl, rfl⟩
          (quiet_cons _ _ ⟨rfl, rfl, rfl, rfl, rfl, rfl⟩
            (quiet_cons _ _ ⟨rfl, rfl, rfl, rfl, rfl, rfl⟩
              (quiet_cons _ _ ⟨rfl, rfl, rfl, rfl, rfl, rfl⟩ quiet_nil))), rfl⟩

theorem verifyTables_spec (env : Env) (tables : List String) :
    ∀ h : List Event, (verifyTables env tables h).1 = .ok () ∧
      Quiet (verifyTables env tables h).2 ∧
      tablesVerified (verifyTables env tables h).2 = tables := by
  induction tables with
  | nil => intro h; exact ⟨rfl, quiet_nil, rfl⟩
  | cons t rest ih =>
    intro h
    have hstep : ∀ e : List Event,
        e = (match (verifyTable env t h).1 with
          | .ok _ => (verifyTable env t h).2
          | .error _ => (verifyTable env t h).2 ++ [Event.console (Msg.couldNotVerify t)]) →
        Quiet e ∧ tablesVerified e = [t] := by
      intro e he
      have hspec := verifyTable_spec env t h
      cases hres : (verifyTable env t h).1 with
      | ok u =>
        rw [hres] at he
        rw [he]
        exact hspec
      | error err =>
        rw [hres] at he
        rw [he]
        refine ⟨quiet_append _ _ hspec.1
          (quiet_cons _ _ ⟨rfl, rfl, rfl, rfl, rfl, rfl⟩ quiet_nil), ?_⟩
        rw [tablesVerified_append, hspec.2]
        rfl
    simp only [verifyTables]
    have hs := hstep _ rfl
    have hrest := ih (h ++ (match (verifyTable env t h).1 with
          | .ok _ => (verifyTable env t h).2
          | .error _ => (verifyTable env t h).2 ++ [Event.console (Msg.couldNotVerify t)]))
    refine ⟨hrest.1, quiet_append _ _ hs.1 hrest.2.1, ?_⟩
    rw [tablesVerified_append, hs.2, hrest.2.2]
    rfl

theorem verifyMigration_spec (env : Env) (h : List Event) :
    (verifyMigration env h).1 = .ok () ∧ Quiet (verifyMigration env h).2 ∧
      tablesVerified (verifyMigration env h).2 = TABLES := by
  have hspec := verifyTables_spec env TABLES (h ++ [Event.console Msg.verifying])
  unfold verifyMigration
  refine ⟨hspec.1, quiet_append _ _ (quiet_cons _ _ ⟨rfl, rfl, rfl, rfl, rfl, rfl⟩ quiet_nil)
    hspec.2.1, ?_⟩
  simp only
  rw [tablesVerified_append, hspec.2.2]
  rfl

/-- C7: whatever the count queries of the two stores answer (equal counts,
different counts, or an error of either query), `verifyMigration` completes
without raising; it queries the nine tables in the fixed order, so a mismatch
or an error for one table does not stop the check of the following ones; it
neither ends the process nor closes a connection nor prints a line of the
summary (the object `stats` is not in its reach: it is a local of `migrate`). -/
theorem verification_is_advisory (env : Env) (h : List Event) :
    (verifyMigration env h).1 = .ok () ∧
    tablesVerified (verifyMigration env h).2 = TABLES ∧
    (∀ e ∈ (verifyMigration env h).2,
      e.isExit = false ∧ e.isClose = false ∧ e.printedRows = none ∧ e.printedTotal = none) := by
  have hspec := verifyMigration_spec env h
  refine ⟨hspec.1, hspec.2.2, ?_⟩
  intro e he
  have hq := hspec.2.1 e he
  exact ⟨hq.2.2.2.2.2, hq.2.2.2.2.1, hq.2.2.1, hq.2.2.2.1⟩

/-! ## Reading quiet events -/

theorem entered_of_table_none (e : Event) (h : e.table = none) : e.entered = none := by
  cases e with
  | console m => cases m <;> first | rfl | cases h
  | _ => rfl

theorem inserted_of_insertIssued_none (tableName : String) (e : Event)
    (h : e.insertIssued = none) : e.inserted tableName = none := by
  cases e with
  | pgQuery stmt ok => cases stmt <;> first | rfl | cases h
  | _ => rfl

theorem isFailedInsert_of_insertIssued_none (e : Event) (h : e.insertIssued = none) :
    e.isFailedInsert = false := by
  cases e with
  | pgQuery stmt ok => cases stmt <;> first | rfl | cases h
  | _ => rfl

theorem silent_of_quiet (ev : List Event) (hq : Quiet ev) : Silent ev :=
  fun e he => ⟨(hq e he).1, (hq e he).2.1, (hq e he).2.2.1, (hq e he).2.2.2.1⟩

theorem silent_nil : Silent [] := by
  intro e he
  cases he

theorem silent_cons (e : Event) (ev : List Event)
    (he : e.table = none ∧ e.insertIssued = none ∧ e.printedRows = none ∧ e.printedTotal = none)
    (hev : Silent ev) : Silent (e :: ev) := by
  intro x hx
  rcases List.mem_cons.mp hx with rfl | hx
  · exact he
  · exact hev x hx

theorem silent_append (a b : List Event) (ha : Silent a) (hb : Silent b) : Silent (a ++ b) := by
  intro e he
  rcases List.mem_append.mp he with he | he
  · exact ha e he
  · exact hb e he

theorem clean_of_silent (ev : List Event) (hq : Silent ev) : Clean ev :=
  fun e he => isFailedInsert_of_insertIssued_none e (hq e he).2.1

theorem tablesTouched_silent (ev : List Event) (hq : Silent ev) : tablesTouched ev = [] :=
  List.filterMap_eq_nil_iff.mpr (fun e he => (hq e he).1)

theorem tablesEntered_silent (ev : List Event) (hq : Silent ev) : tablesEntered ev = [] :=
  List.filterMap_eq_nil_iff.mpr (fun e he => entered_of_table_none e (hq e he).1)

theorem insertedRows_silent (tableName : String) (ev : List Event) (hq : Silent ev) :
    insertedRows tableName ev = [] :=
  List.filterMap_eq_nil_iff.mpr
    (fun e he => inserted_of_insertIssued_none tableName e (hq e he).2.1)

theorem printedRows_silent (ev : List Event) (hq : Silent ev) : printedRows ev = [] :=
  List.filterMap_eq_nil_iff.mpr (fun e he => (hq e he).2.2.1)

theorem printedTotals_silent (ev : List Event) (hq : Silent ev) : printedTotals ev = [] :=
  List.filterMap_eq_nil_iff.mpr (fun e he => (hq e he).2.2.2)

theorem printedRows_append (a b : List Event) :
    printedRows (a ++ b) = printedRows a ++ printedRows b := by
  simp [printedRows]

theorem printedTotals_append (a b : List Event) :
    printedTotals (a ++ b) = printedTotals a ++ printedTotals b := by
  simp [printedTotals]

/-! ## Connections and schema are quiet -/

theorem connectSQLite_quiet (env : Env) (h : List Event) (v : Vars) :
    Quiet (connectSQLite env h v).2.1 := by
  simp only [connectSQLite, List.append_assoc, List.cons_append, List.nil_append]
  split <;>
    repeat (first | exact quiet_nil | refine quiet_cons _ _ ⟨rfl, rfl, rfl, rfl, rfl, rfl⟩ ?_)

theorem connectPostgreSQL_quiet (env : Env) (h : List Event) (v : Vars) :
    Quiet (connectPostgreSQL env h v).2.1 := by
  simp only [connectPostgreSQL, List.append_assoc, List.cons_append, List.nil_append]
  repeat' split
  all_goals
    repeat (first | exact quiet_nil | refine quiet_cons _ _ ⟨rfl, rfl, rfl, rfl, rfl, rfl⟩ ?_)

theorem createSchema_quiet (env : Env) (h : List Event) :
    Quiet (createSchema env h).2 := by
  simp only [createSchema, List.append_assoc, List.cons_append, List.nil_append]
  repeat' split
  all_goals
    repeat (first | exact quiet_nil | refine quiet_cons _ _ ⟨rfl, rfl, rfl, rfl, rfl, rfl⟩ ?_)

/-! ## One table, read from its events -/

theorem clean_nil : Clean [] := by
  intro e he
  cases he

theorem clean_cons (e : Event) (ev : List Event) (he : e.isFailedInsert = false)
    (hev : Clean ev) : Clean (e :: ev) := by
  intro x hx
  rcases List.mem_cons.mp hx with rfl | hx
  · exact he
  · exact hev x hx

theorem clean_readEvents (tableName : String) : Clean (readEvents tableName) :=
  clean_cons _ _ rfl (clean_cons _ _ rfl (clean_cons _ _ rfl clean_nil))

theorem migrateTable_clean_or_aborted (env : Env) (tableName : String) (h : List Event) :
    Clean (migrateTable env tableName h).2 ∨
      ∃ err, (migrateTable env tableName h).1 = .error err ∧
        AbortedAt env h (migrateTable env tableName h).2 err := by
  have hrun := migrateTable_run env tableName h
  generalize migrateTable env tableName h = r at hrun
  cases hrun with
  | existsFailed err hex => exact Or.inl (clean_cons _ _ rfl (clean_cons _ _ rfl clean_nil))
  | missing hex =>
    exact Or.inl (clean_cons _ _ rfl (clean_cons _ _ rfl (clean_cons _ _ rfl clean_nil)))
  | readFailed found err hex hall =>
    exact Or.inl (clean_cons _ _ rfl (clean_cons _ _ rfl (clean_cons _ _ rfl clean_nil)))
  | empty found hex hall =>
    exact Or.inl ((clean_append _ _).mpr ⟨clean_readEvents _, clean_cons _ _ rfl clean_nil⟩)
  | insertFailed found first rest pre row post err hex hall hsplit hins =>
    exact Or.inr ⟨err, rfl, _, tableName, _, row,
      (clean_append _ _).mpr ⟨clean_readEvents _, clean_map_inserted _ _ _⟩, hins, rfl⟩
  | keptIds found first rest hex hall hlist =>
    exact Or.inl ((clean_append _ _).mpr ⟨(clean_append _ _).mpr
      ⟨clean_readEvents _, clean_map_inserted _ _ _⟩, clean_cons _ _ rfl clean_nil⟩)
  | resetTried found first rest ok hex hall hlist hset =>
    exact Or.inl ((clean_append _ _).mpr ⟨(clean_append _ _).mpr
      ⟨clean_readEvents _, clean_map_inserted _ _ _⟩,
      clean_cons _ _ rfl (clean_cons _ _ rfl (clean_cons _ _ rfl clean_nil))⟩)

theorem migrateTable_ok_spec (env : Env) (tableName : String) (h : List Event)
    (res : MigrateResult) (hok : (migrateTable env tableName h).1 = .ok res) :
    tablesEntered (migrateTable env tableName h).2 = [tableName] ∧
    (∃ k, tablesTouched (migrateTable env tableName h).2 = List.replicate (k + 1) tableName) ∧
    (insertedRows tableName (migrateTable env tableName h).2).length = res.migrated ∧
    (∀ other, other ≠ tableName → insertedRows other (migrateTable env tableName h).2 = []) ∧
    printedRows (migrateTable env tableName h).2 = [] ∧
    printedTotals (migrateTable env tableName h).2 = [] := by
  have hrun := migrateTable_run env tableName h
  generalize migrateTable env tableName h = r at hrun hok
  cases hrun with
  | existsFailed err hex => cases hok
  | readFailed found err hex hall => cases hok
  | insertFailed found first rest pre row post err hex hall hsplit hins => cases hok
  | missing hex =>
    cases hok
    exact ⟨rfl, ⟨2, rfl⟩, rfl, fun _ _ => rfl, rfl, rfl⟩
  | empty found hex hall =>
    cases hok
    exact ⟨rfl, ⟨3, rfl⟩, rfl, fun _ _ => rfl, rfl, rfl⟩
  | keptIds found first rest hex hall hlist =>
    cases hok
    refine ⟨?_, ⟨rest.length + 4, ?_⟩, ?_, ?_, ?_, ?_⟩
    · simp only [tablesEntered_append, tablesEntered_map_inserted]
      rfl
    · simp only [tablesTouched_append, tablesTouched_map_inserted]
      rw [List.eq_replicate_iff]
      refine ⟨by simp [tablesTouched, readEvents, Event.table], ?_⟩
      intro b hb
      simpa [tablesTouched, readEvents, Event.table] using hb
    · simp only [insertedRows_append, insertedRows_map_inserted]
      simp [insertedRows, readEvents, Event.inserted]
    · intro other hne
      simp only [insertedRows_append,
        insertedRows_map_inserted_ne tableName other _ _ (Ne.symm hne)]
      rfl
    · simp only [printedRows_append, printedRows_map_inserted]
      rfl
    · simp only [printedTotals_append, printedTotals_map_inserted]
      rfl
  | resetTried found first rest ok hex hall hlist hset =>
    cases hok
    refine ⟨?_, ⟨rest.length + 6, ?_⟩, ?_, ?_, ?_, ?_⟩
    · simp only [tablesEntered_append, tablesEntered_map_inserted]
      cases ok <;> rfl
    · simp only [tablesTouched_append, tablesTouched_map_inserted]
      rw [List.eq_replicate_iff]
      refine ⟨by cases ok <;> simp [tablesTouched, readEvents, Event.table], ?_⟩
      intro b hb
      cases ok <;> simpa [tablesTouched, readEvents, Event.table] using hb
    · simp only [insertedRows_append, insertedRows_map_inserted]
      cases ok <;> simp [insertedRows, readEvents, Event.inserted]
    · intro other hne
      simp only [insertedRows_append,
        insertedRows_map_inserted_ne tableName other _ _ (Ne.symm hne)]
      cases ok <;> rfl
    · simp only [printedRows_append, printedRows_map_inserted]
      cases ok <;> rfl
    · simp only [printedTotals_append, printedTotals_map_inserted]
      cases ok <;> rfl

/-! ## The loop over the tables -/

theorem aborted_shift (env : Env) (h a ev : List Event) (err : Err) (ha : Clean a)
    (hab : AbortedAt env (h ++ a) ev err) : AbortedAt env h (a ++ ev) err := by
  rcases hab with ⟨ev0, t, cols, row, hclean, hq, hev⟩
  refine ⟨a ++ ev0, t, cols, row, (clean_append _ _).mpr ⟨ha, hclean⟩, ?_, ?_⟩
  · rw [← List.append_assoc]
    exact hq
  · rw [hev, List.append_assoc]

theorem migrateTables_clean_or_aborted (env : Env) (tables : List String) :
    ∀ (h : List Event) (stats : Stats),
      Clean (migrateTables env tables h stats).2 ∨
        ∃ err, (migrateTables env tables h stats).1 = .error err ∧
          AbortedAt env h (migrateTables env tables h stats).2 err := by
  induction tables with
  | nil => intro h stats; exact Or.inl clean_nil
  | cons t rest ih =>
    intro h stats
    have hone := migrateTable_clean_or_aborted env t h
    cases hres : (migrateTable env t h).1 with
    | error err =>
      simp only [migrateTables, hres]
      rcases hone with hclean | ⟨err2, herr2, hab⟩
      · exact Or.inl hclean
      · rw [hres] at herr2
        cases herr2
        exact Or.inr ⟨err, rfl, hab⟩
    | ok res =>
      simp only [migrateTables, hres]
      rcases hone with hclean | ⟨err2, herr2, _⟩
      · rcases ih (h ++ (migrateTable env t h).2) (Stats.set stats t res.migrated) with
          hc2 | ⟨err, herr, hab⟩
        · exact Or.inl ((clean_append _ _).mpr ⟨hclean, hc2⟩)
        · exact Or.inr ⟨err, herr, aborted_shift env h _ _ err hclean hab⟩
      · rw [hres] at herr2
        cases herr2

theorem set_new (stats : Stats) (tableName : String) (count : Nat)
    (hnew : stats.any (fun p => p.1 == tableName) = false) :
    Stats.set stats tableName count = stats ++ [(tableName, count)] := by
  unfold Stats.set
  rw [hnew]
  rfl

theorem tableBlocks_cons (t : String) (rest : List String) (k : Nat) (ks : List Nat) :
    tableBlocks (t :: rest) (k :: ks) = List.replicate (k + 1) t ++ tableBlocks rest ks := by
  simp [tableBlocks]

theorem migrateTables_ok_spec (env : Env) (tables : List String) :
    ∀ (h : List Event) (stats0 stats : Stats), tables.Nodup →
      (∀ t ∈ tables, stats0.any (fun p => p.1 == t) = false) →
      (migrateTables env tables h stats0).1 = .ok stats →
      tablesEntered (migrateTables env tables h stats0).2 = tables ∧
      (∃ ks : List Nat, ks.length = tables.length ∧
        tablesTouched (migrateTables env tables h stats0).2 = tableBlocks tables ks) ∧
      stats = stats0 ++ tables.map
        (fun t => (t, (insertedRows t (migrateTables env tables h stats0).2).length)) ∧
      (∀ other, other ∉ tables →
        insertedRows other (migrateTables env tables h stats0).2 = []) ∧
      printedRows (migrateTables env tables h stats0).2 = [] ∧
      printedTotals (migrateTables env tables h stats0).2 = [] := by
  induction tables with
  | nil =>
    intro h stats0 stats _ _ hok
    simp only [migrateTables] at hok
    cases hok
    exact ⟨rfl, ⟨[], rfl, rfl⟩, by simp, fun _ _ => rfl, rfl, rfl⟩
  | cons t rest ih =>
    intro h stats0 stats hnodup hkeys hok
    cases hres : (migrateTable env t h).1 with
    | error err =>
      simp only [migrateTables, hres] at hok
      cases hok
    | ok res =>
      simp only [migrateTables, hres] at hok ⊢
      have hone := migrateTable_ok_spec env t h res hres
      have hnot : t ∉ rest := (List.nodup_cons.mp hnodup).1
      have hset : Stats.set stats0 t res.migrated = stats0 ++ [(t, res.migrated)] :=
        set_new stats0 t res.migrated (hkeys t (List.mem_cons_self t rest))
      have hkeys2 : ∀ x ∈ rest,
          (Stats.set stats0 t res.migrated).any (fun p => p.1 == x) = false := by
        intro x hx
        rw [hset, List.any_append, hkeys x (List.mem_cons_of_mem t hx)]
        have hne : ¬ t = x := fun hcontra => hnot (hcontra ▸ hx)
        simp [hne]
      have hrest := ih (h ++ (migrateTable env t h).2) (Stats.set stats0 t res.migrated) stats
        (List.nodup_cons.mp hnodup).2 hkeys2 hok
      rcases hone with ⟨h1, ⟨k, h2⟩, h3, h4, h5, h6⟩
      rcases hrest with ⟨r1, ⟨ks, hks, r2⟩, r3, r4, r5, r6⟩
      generalize (migrateTables env rest (h ++ (migrateTable env t h).2)
        (Stats.set stats0 t res.migrated)).2 = ev2 at r1 r2 r3 r4 r5 r6 ⊢
      refine ⟨?_, ⟨k :: ks, by simp [hks], ?_⟩, ?_, ?_, ?_, ?_⟩
      · rw [tablesEntered_append, h1, r1]
        rfl
      · rw [tablesTouched_append, h2, r2, tableBlocks_cons]
      · rw [r3, hset, List.append_assoc]
        congr 1
        simp only [List.map_cons, List.singleton_append, insertedRows_append]
        congr 1
        · rw [r4 t hnot, List.append_nil, h3]
        · apply List.map_congr_left
          intro x hx
          have hne : x ≠ t := fun hcontra => hnot (hcontra ▸ hx)
          rw [h4 x hne, List.nil_append]
      · intro other hother
        have hne : other ≠ t := fun hcontra => hother (hcontra ▸ List.mem_cons_self t rest)
        have hnr : other ∉ rest := fun hcontra => hother (List.mem_cons_of_mem t hcontra)
        rw [insertedRows_append, h4 other hne, r4 other hnr]
        rfl
      · rw [printedRows_append, h5, r5]
        rfl
      · rw [printedTotals_append, h6, r6]
        rfl

/-! ## The whole run -/

theorem summary_clean (stats : Stats) : Clean (summary stats) := by
  intro e he
  simp only [summary, List.mem_append, List.mem_cons, List.mem_map, List.mem_singleton,
    List.not_mem_nil, or_false] at he
  rcases he with (hfix | ⟨p, _, rfl⟩) | hfix
  · rcases hfix with rfl | rfl | rfl <;> rfl
  · rfl
  · rcases hfix with rfl | rfl <;> rfl

theorem printedRows_tableRows (stats : Stats) :
    List.filterMap (Event.printedRows ∘ fun p => Event.console (Msg.tableRows p.1 p.2)) stats
      = stats := by
  induction stats with
  | nil => rfl
  | cons p rest ih =>
    rw [List.filterMap_cons]
    simp only [Function.comp, Event.printedRows] at ih ⊢
    rw [ih]

theorem summary_reads (stats : Stats) :
    tablesEntered (summary stats) = [] ∧ tablesTouched (summary stats) = [] ∧
    (∀ t, insertedRows t (summary stats) = []) ∧
    printedRows (summary stats) = stats ∧
    printedTotals (summary stats)
      = [(stats.map Prod.snd).foldl (fun sum count => sum + count) 0] := by
  have hmap : ∀ (f : Event → Option String),
      (∀ t c, f (Event.console (Msg.tableRows t c)) = none) →
      List.filterMap f (stats.map (fun p => Event.console (Msg.tableRows p.1 p.2))) = [] := by
    intro f hf
    apply List.filterMap_eq_nil_iff.mpr
    intro e he
    rcases List.mem_map.mp he with ⟨p, _, rfl⟩
    exact hf _ _
  refine ⟨?_, ?_, ?_, ?_, ?_⟩
  · simp only [summary, tablesEntered, List.filterMap_append, hmap Event.entered (fun _ _ => rfl)]
    rfl
  · simp only [summary, tablesTouched, List.filterMap_append, hmap Event.table (fun _ _ => rfl)]
    rfl
  · intro t
    apply List.filterMap_eq_nil_iff.mpr
    intro e he
    simp only [summary, List.mem_append, List.mem_cons, List.mem_map, List.mem_singleton,
      List.not_mem_nil, or_false] at he
    rcases he with (hfix | ⟨p, _, rfl⟩) | hfix
    · rcases hfix with rfl | rfl | rfl <;> rfl
    · rfl
    · rcases hfix with rfl | rfl <;> rfl
  · simp only [summary, printedRows, List.filterMap_append, List.filterMap_map]
    rw [printedRows_tableRows]
    simp [Event.printedRows]
  · simp only [summary, printedTotals, List.filterMap_append, List.filterMap_map]
    have : List.filterMap (Event.printedTotal ∘ fun p => Event.console (Msg.tableRows p.1 p.2))
        stats = [] := by
      apply List.filterMap_eq_nil_iff.mpr
      intro p _
      rfl
    rw [this]
    simp [Event.printedTotal]

theorem migrateFinally_reads (env : Env) (h : List Event) (v : Vars) :
    Clean (migrateFinally env h v).2 ∧ Silent (migrateFinally env h v).2 := by
  simp only [migrateFinally]
  repeat' split
  all_goals
    refine ⟨?_, ?_⟩
    · repeat (first | exact clean_nil | refine clean_cons _ _ rfl ?_)
    · repeat (first | exact silent_nil | refine silent_cons _ _ ⟨rfl, rfl, rfl, rfl⟩ ?_)

theorem migrateTry_clean_or_aborted (env : Env) (h : List Event) (v : Vars) :
    Clean (migrateTry env h v).2.1 ∨
      ∃ err, (migrateTry env h v).1 = .error err ∧ AbortedAt env h (migrateTry env h v).2.1 err := by
  simp only [migrateTry]
  have q1 := clean_of_silent _ (silent_of_quiet _ (connectSQLite_quiet env h v))
  generalize connectSQLite env h v = c1 at q1 ⊢
  cases hc1 : c1.1 with
  | error err => exact Or.inl q1
  | ok u1 =>
    simp only
    have q2 := clean_of_silent _
      (silent_of_quiet _ (connectPostgreSQL_quiet env (h ++ c1.2.1) c1.2.2))
    generalize connectPostgreSQL env (h ++ c1.2.1) c1.2.2 = c2 at q2 ⊢
    cases hc2 : c2.1 with
    | error err => exact Or.inl ((clean_append _ _).mpr ⟨q1, q2⟩)
    | ok u2 =>
      simp only
      have q3 := clean_of_silent _
        (silent_of_quiet _ (createSchema_quiet env (h ++ (c1.2.1 ++ c2.2.1))))
      generalize createSchema env (h ++ (c1.2.1 ++ c2.2.1)) = c3 at q3 ⊢
      have qpre : Clean (c1.2.1 ++ c2.2.1 ++ c3.2 ++ [Event.console Msg.startingData]) :=
        (clean_append _ _).mpr ⟨(clean_append _ _).mpr ⟨(clean_append _ _).mpr ⟨q1, q2⟩, q3⟩,
          clean_cons _ _ rfl clean_nil⟩
      cases hc3 : c3.1 with
      | error err => exact Or.inl ((clean_append _ _).mpr ⟨(clean_append _ _).mpr ⟨q1, q2⟩, q3⟩)
      | ok u3 =>
        simp only
        have q5 := migrateTables_clean_or_aborted env TABLES
          (h ++ (c1.2.1 ++ c2.2.1 ++ c3.2 ++ [Event.console Msg.startingData])) []
        generalize migrateTables env TABLES
          (h ++ (c1.2.1 ++ c2.2.1 ++ c3.2 ++ [Event.console Msg.startingData])) [] = c5 at q5 ⊢
        cases hc5 : c5.1 with
        | error err =>
          simp only
          rcases q5 with q5 | ⟨err2, herr2, hab⟩
          · exact Or.inl ((clean_append _ _).mpr ⟨qpre, q5⟩)
          · rw [hc5] at herr2
            cases herr2
            exact Or.inr ⟨err, rfl, aborted_shift env h _ _ err qpre hab⟩
        | ok stats =>
          simp only
          rcases q5 with q5 | ⟨err2, herr2, _⟩
          · have q6 := clean_of_silent _ (silent_of_quiet _ (verifyMigration_spec env
              (h ++ (c1.2.1 ++ c2.2.1 ++ c3.2 ++ [Event.console Msg.startingData] ++ c5.2))).2.1)
            generalize verifyMigration env
              (h ++ (c1.2.1 ++ c2.2.1 ++ c3.2 ++ [Event.console Msg.startingData] ++ c5.2))
                = c6 at q6 ⊢
            cases hc6 : c6.1 with
            | error err =>
              exact Or.inl ((clean_append _ _).mpr ⟨(clean_append _ _).mpr ⟨qpre, q5⟩, q6⟩)
            | ok u6 =>
              exact Or.inl ((clean_append _ _).mpr
                ⟨(clean_append _ _).mpr ⟨(clean_append _ _).mpr ⟨qpre, q5⟩, q6⟩,
                  summary_clean stats⟩)
          · rw [hc5] at herr2
            cases herr2

theorem migrateTry_ok_spec (env : Env) (h : List Event) (v : Vars)
    (hok : (migrateTry env h v).1 = .ok ()) :
    ∃ pre stats post, Silent pre ∧ Silent post ∧
      (migrateTables env TABLES (h ++ pre) []).1 = .ok stats ∧
      (migrateTry env h v).2.1
        = pre ++ (migrateTables env TABLES (h ++ pre) []).2 ++ post ++ summary stats := by
  simp only [migrateTry] at hok ⊢
  have q1 := silent_of_quiet _ (connectSQLite_quiet env h v)
  generalize connectSQLite env h v = c1 at q1 hok ⊢
  cases hc1 : c1.1 with
  | error err => simp only [hc1] at hok; cases hok
  | ok u1 =>
    simp only [hc1] at hok ⊢
    have q2 := silent_of_quiet _ (connectPostgreSQL_quiet env (h ++ c1.2.1) c1.2.2)
    generalize connectPostgreSQL env (h ++ c1.2.1) c1.2.2 = c2 at q2 hok ⊢
    cases hc2 : c2.1 with
    | error err => simp only [hc2] at hok; cases hok
    | ok u2 =>
      simp only [hc2] at hok ⊢
      have q3 := silent_of_quiet _ (createSchema_quiet env (h ++ (c1.2.1 ++ c2.2.1)))
      generalize createSchema env (h ++ (c1.2.1 ++ c2.2.1)) = c3 at q3 hok ⊢
      cases hc3 : c3.1 with
      | error err => simp only [hc3] at hok; cases hok
      | ok u3 =>
        simp only [hc3] at hok ⊢
        have qpre : Silent (c1.2.1 ++ c2.2.1 ++ c3.2 ++ [Event.console Msg.startingData]) :=
          silent_append _ _ (silent_append _ _ (silent_append _ _ q1 q2) q3)
            (silent_cons _ _ ⟨rfl, rfl, rfl, rfl⟩ silent_nil)
        cases hc5 : (migrateTables env TABLES
            (h ++ (c1.2.1 ++ c2.2.1 ++ c3.2 ++ [Event.console Msg.startingData])) []).1 with
        | error err => simp only [hc5] at hok; cases hok
        | ok stats =>
          simp only [hc5] at hok ⊢
          have q6 := silent_of_quiet _ (verifyMigration_spec env
            (h ++ (c1.2.1 ++ c2.2.1 ++ c3.2 ++ [Event.console Msg.startingData] ++
              (migrateTables env TABLES
                (h ++ (c1.2.1 ++ c2.2.1 ++ c3.2 ++ [Event.console Msg.startingData])) []).2))).2.1
          generalize verifyMigration env
            (h ++ (c1.2.1 ++ c2.2.1 ++ c3.2 ++ [Event.console Msg.startingData] ++
              (migrateTables env TABLES
                (h ++ (c1.2.1 ++ c2.2.1 ++ c3.2 ++ [Event.console Msg.startingData])) []).2))
              = c6 at q6 hok ⊢
          cases hc6 : c6.1 with
          | error err => simp only [hc6] at hok; cases hok
          | ok u6 =>
            simp only [hc6]
            exact ⟨_, stats, c6.2, qpre, q6, hc5, rfl⟩

theorem main_clean_or_aborted (env : Env) :
    Clean (main env).trace ∨
      ∃ err ev0 t cols row, Clean ev0 ∧
        env.pgQuery ev0 (insertStmt t cols row) = .error err ∧
        (main env).trace = ev0 ++ [Event.pgQuery (insertStmt t cols row) false,
          Event.console (Msg.insertError t err), Event.console (Msg.rowData row),
          Event.console (Msg.migrationFailed err), Event.console (Msg.errorObject err),
          Event.processExit 1] ∧
        (main env).exitCode = 1 := by
  simp only [main, migrate]
  have q := migrateTry_clean_or_aborted env [Event.console Msg.banner] (Vars.mk false false)
  generalize migrateTry env [Event.console Msg.banner] (Vars.mk false false) = r at q ⊢
  have qb : Clean [Event.console Msg.banner] := clean_cons _ _ rfl clean_nil
  cases hr : r.1 with
  | error err =>
    simp only
    rcases q with q | ⟨err2, herr2, ev0, t, cols, row, hclean, hq, hev⟩
    · exact Or.inl ((clean_append _ _).mpr ⟨(clean_append _ _).mpr ⟨qb, q⟩,
        clean_cons _ _ rfl (clean_cons _ _ rfl (clean_cons _ _ rfl clean_nil))⟩)
    · rw [hr] at herr2
      cases herr2
      refine Or.inr ⟨err, [Event.console Msg.banner] ++ ev0, t, cols, row,
        (clean_append _ _).mpr ⟨qb, hclean⟩, hq, ?_, trivial⟩
      rw [hev]
      simp
  | ok u =>
    simp only
    have hclean : Clean r.2.1 := by
      rcases q with q | ⟨err2, herr2, _⟩
      · exact q
      · rw [hr] at herr2
        cases herr2
    have f := (migrateFinally_reads env ([Event.console Msg.banner] ++ r.2.1) r.2.2).1
    generalize migrateFinally env ([Event.console Msg.banner] ++ r.2.1) r.2.2 = fin at f ⊢
    cases hf : fin.1 with
    | error err =>
      exact Or.inl ((clean_append _ _).mpr ⟨(clean_append _ _).mpr
        ⟨(clean_append _ _).mpr ⟨qb, hclean⟩, f⟩,
        clean_cons _ _ rfl (clean_cons _ _ rfl clean_nil)⟩)
    | ok u2 =>
      exact Or.inl ((clean_append _ _).mpr ⟨(clean_append _ _).mpr ⟨qb, hclean⟩, f⟩)

theorem main_ok_spec (env : Env) (hok : (main env).exitCode = 0) :
    ∃ pre stats post fin, Silent pre ∧ Silent post ∧ Silent fin ∧
      (migrateTables env TABLES pre []).1 = .ok stats ∧
      (main env).trace
        = pre ++ (migrateTables env TABLES pre []).2 ++ post ++ summary stats ++ fin := by
  simp only [main, migrate] at hok ⊢
  have spec := migrateTry_ok_spec env [Event.console Msg.banner] (Vars.mk false false)
  generalize migrateTry env [Event.console Msg.banner] (Vars.mk false false) = r at spec hok ⊢
  cases hr : r.1 with
  | error err =>
    simp only [hr] at hok
    cases hok
  | ok u =>
    simp only [hr] at hok ⊢
    rcases spec hr with ⟨pre, stats, post, hpre, hpost, hloop, hev⟩
    have f := (migrateFinally_reads env ([Event.console Msg.banner] ++ r.2.1) r.2.2).2
    generalize migrateFinally env ([Event.console Msg.banner] ++ r.2.1) r.2.2 = fin at f hok ⊢
    cases hf : fin.1 with
    | error err =>
      simp only [hf] at hok
      cases hok
    | ok u2 =>
      simp only
      refine ⟨[Event.console Msg.banner] ++ pre, stats, post, fin.2,
        silent_append _ _ (silent_cons _ _ ⟨rfl, rfl, rfl, rfl⟩ silent_nil) hpre, hpost, f,
        hloop, ?_⟩
      rw [hev]
      simp only [List.append_assoc]

theorem split_unique (a : List Event) :
    ∀ (a2 b b2 : List Event) (x x2 : Event), x.isFailedInsert = true →
      Clean a2 → Clean b2 → a ++ x :: b = a2 ++ x2 :: b2 → a = a2 ∧ x = x2 ∧ b = b2 := by
  induction a with
  | nil =>
    intro a2 b b2 x x2 hx ha2 hb2 heq
    cases a2 with
    | nil =>
      simp only [List.nil_append, List.cons.injEq] at heq
      exact ⟨rfl, heq.1, heq.2⟩
    | cons y rest =>
      simp only [List.nil_append, List.cons_append, List.cons.injEq] at heq
      have := ha2 y (List.mem_cons_self y rest)
      rw [← heq.1, hx] at this
      cases this
  | cons y a1 ih =>
    intro a2 b b2 x x2 hx ha2 hb2 heq
    cases a2 with
    | nil =>
      simp only [List.nil_append, List.cons_append, List.cons.injEq] at heq
      have := hb2 x (by rw [← heq.2]; simp)
      rw [hx] at this
      cases this
    | cons z rest =>
      simp only [List.cons_append, List.cons.injEq] at heq
      have hrec := ih rest b b2 x x2 hx
        (fun e he => ha2 e (List.mem_cons_of_mem z he)) hb2 heq.2
      exact ⟨by rw [heq.1, hrec.1], hrec.2.1, hrec.2.2⟩

/-! ## Claims on the whole run -/

/-- C2: if in a run the destination refuses the insert of a row of a table,
the events after the refused insert are exactly the two log lines of
`migrateTable` (the error message, the row), the two log lines of the `catch`
block of `migrate` with the message of the very error the insert raised, and
`process.exit(1)`: no insert is sent for a later row, `migrateTable` is not
entered for a later table, `verifyMigration` is not run, and the exit status
is 1. -/
theorem abort_on_first_row_failure (env : Env) (pre post : List Event)
    (t : String) (cols : List String) (values : List JSValue)
    (hrun : (main env).trace = pre ++ Event.pgQuery (PgStmt.insert t cols values) false :: post) :
    ∃ err row, values = rowValues t cols row ∧
      env.pgQuery pre (PgStmt.insert t cols values) = .error err ∧
      post = [Event.console (Msg.insertError t err), Event.console (Msg.rowData row),
        Event.console (Msg.migrationFailed err), Event.console (Msg.errorObject err),
        Event.processExit 1] ∧
      (main env).exitCode = 1 ∧
      (∀ e ∈ post, e.isPgQuery = false) ∧ tablesEntered post = [] ∧
      tablesVerified post = [] ∧ Event.console Msg.verifying ∉ post := by
  rcases main_clean_or_aborted env with hclean | ⟨err, ev0, t2, cols2, row, hclean, hq, htrace, hexit⟩
  · rw [hrun] at hclean
    exact absurd hclean (not_clean_of_refused pre _ post ⟨t, cols, values, rfl⟩)
  · rw [htrace] at hrun
    have htail : Clean [Event.console (Msg.insertError t2 err), Event.console (Msg.rowData row),
        Event.console (Msg.migrationFailed err), Event.console (Msg.errorObject err),
        Event.processExit 1] :=
      clean_cons _ _ rfl (clean_cons _ _ rfl (clean_cons _ _ rfl (clean_cons _ _ rfl
        (clean_cons _ _ rfl clean_nil))))
    have huniq := split_unique pre ev0 post _ (Event.pgQuery (PgStmt.insert t cols values) false)
      (Event.pgQuery (insertStmt t2 cols2 row) false) rfl hclean htail hrun.symm
    rcases huniq with ⟨hpre, hx, hpost⟩
    simp only [insertStmt, Event.pgQuery.injEq, PgStmt.insert.injEq, and_true] at hx
    rcases hx with ⟨rfl, rfl, rfl⟩
    subst hpre
    refine ⟨err, row, rfl, hq, hpost, hexit, ?_, ?_, ?_, ?_⟩
    · intro e he
      rw [hpost] at he
      simp only [List.mem_cons, List.mem_singleton, List.not_mem_nil, or_false] at he
      rcases he with rfl | rfl | rfl | rfl | rfl <;> rfl
    · rw [hpost]
      rfl
    · rw [hpost]
      rfl
    · rw [hpost]
      simp

/-- C2, on the sample run in which the second row of `items` is refused. -/
theorem abort_on_first_row_failure_witness :
    (main envBadRow).trace = (main envBadRow).trace.take 19 ++
      Event.pgQuery (PgStmt.insert "items" ["name", "stock"] [.str "Rum", .null]) false ::
        (main envBadRow).trace.drop 20 ∧
    ∃ err row, [JSValue.str "Rum", JSValue.null] = rowValues "items" ["name", "stock"] row ∧
      envBadRow.pgQuery ((main envBadRow).trace.take 19)
        (PgStmt.insert "items" ["name", "stock"] [.str "Rum", .null]) = .error err ∧
      (main envBadRow).trace.drop 20 =
        [Event.console (Msg.insertError "items" err), Event.console (Msg.rowData row),
          Event.console (Msg.migrationFailed err), Event.console (Msg.errorObject err),
          Event.processExit 1] ∧
      (main envBadRow).exitCode = 1 ∧
      (∀ e ∈ (main envBadRow).trace.drop 20, e.isPgQuery = false) ∧
      tablesEntered ((main envBadRow).trace.drop 20) = [] ∧
      tablesVerified ((main envBadRow).trace.drop 20) = [] ∧
      Event.console Msg.verifying ∉ (main envBadRow).trace.drop 20 :=
  ⟨by decide,
   abort_on_first_row_failure envBadRow ((main envBadRow).trace.take 19)
    ((main envBadRow).trace.drop 20) "items" ["name", "stock"] [.str "Rum", .null] (by decide)⟩

/-- C10: in a run that ends with status 0, `migrateTable` is entered exactly
once for each of the nine tables, in the order of `TABLES`; the events of
`migrateTable` come in nine blocks, one for each table in that order, so the
work on a table is over before the next table begins; the summary prints
exactly one entry for each table, in that order, holding the number of rows
the run inserted into the table, and the printed total is the sum of these
nine counts. -/
theorem fixed_table_order (env : Env) (hok : (main env).exitCode = 0) :
    tablesEntered (main env).trace = TABLES ∧
    (∃ ks : List Nat, ks.length = TABLES.length ∧
      tablesTouched (main env).trace = tableBlocks TABLES ks) ∧
    printedRows (main env).trace
      = TABLES.map (fun t => (t, (insertedRows t (main env).trace).length)) ∧
    printedTotals (main env).trace
      = [(TABLES.map (fun t => (insertedRows t (main env).trace).length)).sum] := by
  rcases main_ok_spec env hok with ⟨pre, stats, post, fin, hpre, hpost, hfin, hloop, htrace⟩
  have hspec := migrateTables_ok_spec env TABLES pre [] stats (by decide)
    (fun _ _ => rfl) hloop
  rcases hspec with ⟨l1, ⟨ks, hks, l2⟩, l3, _, l5, l6⟩
  have hsum := summary_reads stats
  have hins : ∀ t, insertedRows t (main env).trace
      = insertedRows t (migrateTables env TABLES pre []).2 := by
    intro t
    rw [htrace]
    simp only [insertedRows_append, insertedRows_silent t pre hpre,
      insertedRows_silent t post hpost, insertedRows_silent t fin hfin, hsum.2.2.1 t,
      List.nil_append, List.append_nil]
  have hstats : stats
      = TABLES.map (fun t => (t, (insertedRows t (main env).trace).length)) := by
    rw [l3, List.nil_append]
    apply List.map_congr_left
    intro t _
    rw [hins t]
  refine ⟨?_, ⟨ks, hks, ?_⟩, ?_, ?_⟩
  · rw [htrace]
    simp only [tablesEntered_append, tablesEntered_silent pre hpre,
      tablesEntered_silent post hpost, tablesEntered_silent fin hfin, hsum.1, l1,
      List.nil_append, List.append_nil]
  · rw [htrace]
    simp only [tablesTouched_append, tablesTouched_silent pre hpre,
      tablesTouched_silent post hpost, tablesTouched_silent fin hfin, hsum.2.1, l2,
      List.nil_append, List.append_nil]
  · rw [← hstats, htrace]
    simp only [printedRows_append, printedRows_silent pre hpre,
      printedRows_silent post hpost, printedRows_silent fin hfin, hsum.2.2.2.1, l5,
      List.nil_append, List.append_nil]
  · have htot : printedTotals (main env).trace
        = [(stats.map Prod.snd).foldl (fun sum count => sum + count) 0] := by
      rw [htrace]
      simp only [printedTotals_append, printedTotals_silent pre hpre,
        printedTotals_silent post hpost, printedTotals_silent fin hfin, hsum.2.2.2.2, l6,
        List.nil_append, List.append_nil]
    rw [htot, List.sum_eq_foldl]
    congr 2
    rw [hstats, List.map_map]
    rfl

/-- C10, on the sample run in which every step succeeds: five rows in all. -/
theorem fixed_table_order_witness :
    (main envOk).exitCode = 0 ∧ tablesEntered (main envOk).trace = TABLES ∧
    printedTotals (main envOk).trace
      = [(TABLES.map (fun t => (insertedRows t (main envOk).trace).length)).sum] :=
  ⟨by decide, (fixed_table_order envOk (by decide)).1, (fixed_table_order envOk (by decide)).2.2.2⟩

/-- C5, at a run without `DATABASE_URL` and at a run with a refused row: the
SQLite handle, and in the second run the PostgreSQL pool as well, is open when
the error is caught, the process ends with status 1 by `process.exit(1)` in the
`catch` block, and no connection is closed. -/
theorem failed_run_closes_nothing :
    (Event.sqliteOpen true ∈ (main envNoUrl).trace ∧ (main envNoUrl).exitCode = 1 ∧
      (main envNoUrl).trace.getLast? = some (Event.processExit 1) ∧
      ∀ e ∈ (main envNoUrl).trace, e.isClose = false) ∧
    (Event.sqliteOpen true ∈ (main envBadRow).trace ∧
      Event.pgConnect true ∈ (main envBadRow).trace ∧ (main envBadRow).exitCode = 1 ∧
      (main envBadRow).trace.getLast? = some (Event.processExit 1) ∧
      ∀ e ∈ (main envBadRow).trace, e.isClose = false) := by
  decide

end Migrate
